import Mathlib

/-!
Verification development for `sat-img-utils`: a shallow embedding of the
patch-extraction pipeline (`pipelines/patches.py`), the execution context
(`pipelines/context.py`), the mask/fraction engine (`core/masks.py`,
`core/filters.py`), the SAR radiometric normalization (`core/transforms.py`),
the memory-bounded window reader (`geo/raster.py`) and the chunked overlay
density engine (`datasets/ghsl.py`), together with theorems settling the
spec claims about them.

Numeric arrays are modelled as `List ℚ` / `List ℤ` (flattened) or
`List (List _)` (2-D) and machine floats as exact rationals; external
library services (numpy `log10`/`percentile`, the uint8 cast, raster I/O,
reprojection) are uninterpreted parameters, with their documented contracts
stated where a claim needs them.
-/

namespace SatImg

/-- Python `range(0, n, step)` for `step ≥ 1`: the offsets
`0, step, 2·step, …` strictly below `n` (empty when `step = 0`, a case
Python rejects with `ValueError`). -/
def pyRange (n step : Nat) : List Nat :=
  if h : 0 < step ∧ 0 < n then
    0 :: (pyRange (n - step) step).map (fun x => x + step)
  else
    []
termination_by n
decreasing_by omega

/-! ## Valid/Threshold Mask Engine (`core/masks.py`, `core/filters.py`)

Arrays are flattened to `List α` (1-D) or kept as `List (List α)` (2-D)
where the source slices rows and columns.  Sample values are rationals
(exact models of the floats involved); all model values are finite, so the
`np.isfinite` conjunct of `get_valid_mask` is identically true. -/

/-- Number of `true` entries of a boolean array (`mask.sum()` in numpy). -/
def countTrue (l : List Bool) : Nat := l.countP id

/-- Number of `true` entries of a 2-D boolean array. -/
def countTrue2 (l : List (List Bool)) : Nat := (l.map countTrue).sum

/-- The validity mask `np.ones(...)` / `arr != nodata` built by
`patch_value_fraction` (masks.py lines 28-32) and by
`calculate_threshold_fraction` (masks.py line 104, filters.py line 35). -/
def validOf {α : Type} [DecidableEq α] (nodata : Option α) (arr : List α) : List Bool :=
  match nodata with
  | none => arr.map (fun _ => true)
  | some nd => arr.map (fun x => decide (x ≠ nd))

/-- The validity array `patch_value_fraction` computes on masks.py lines
28-32: the supplied `valid_pixels` if any, else all-ones / `patch != nodata`. -/
def pvfValidPixels {α : Type} [DecidableEq α] (patch : List α) (nodata : Option α)
    (valid_pixels : Option (List Bool)) : List Bool :=
  match valid_pixels with
  | some v => v
  | none => validOf nodata patch

/-- `masks.patch_value_fraction`: fraction of pixels equal to
`filter_value` among valid pixels; explicit `0.0` when no pixel is valid. -/
def patch_value_fraction {α : Type} [DecidableEq α] (patch : List α) (filter_value : α)
    (nodata : Option α) (valid_pixels : Option (List Bool)) : ℚ :=
  let vp := pvfValidPixels patch nodata valid_pixels
  let valid_count := countTrue vp
  if valid_count = 0 then 0
  else ((List.zipWith (fun x b => decide (x = filter_value) && b) patch vp).countP id : ℚ)
        / (valid_count : ℚ)

/-- `masks.calculate_threshold_fraction`: fraction of valid pixels
satisfying the selected comparison against `filter_value`
(`greater`/`strict` select `>`, `≥`, `<` or `≤`). -/
def calculate_threshold_fraction {α : Type} [LinearOrder α] (data : List α)
    (filter_value : α) (nodata : Option α) (greater strict : Bool) : ℚ :=
  let valid := validOf nodata data
  let satisfied := data.map (fun x =>
    if greater then
      (if strict then decide (filter_value < x) else decide (filter_value ≤ x))
    else
      (if strict then decide (x < filter_value) else decide (x ≤ filter_value)))
  let valid_count := countTrue valid
  if valid_count = 0 then 0
  else ((List.zipWith (fun s v => s && v) satisfied valid).countP id : ℚ) / (valid_count : ℚ)

/-- `filters.fraction_from_mask`: fraction of mask entries equal to
`target_value` among valid pixels; `0.0` when no pixel is valid. -/
def fraction_from_mask {α : Type} [DecidableEq α] (binary_mask : List α)
    (valid_pixels : List Bool) (target_value : α) : ℚ :=
  let valid_count := countTrue valid_pixels
  if valid_count = 0 then 0
  else ((List.zipWith (fun x b => decide (x = target_value) && b) binary_mask valid_pixels).countP id : ℚ)
        / (valid_count : ℚ)

/-- `filters.calculate_threshold_fraction`: builds
`binary = (data > threshold) & valid` (or `<`) and delegates to
`fraction_from_mask binary valid (target_value := True)`. -/
def calculate_threshold_fraction_filters {α : Type} [LinearOrder α] (data : List α)
    (threshold : α) (nodata : Option α) (greater : Bool) : ℚ :=
  let valid := validOf nodata data
  let binary := List.zipWith
    (fun x v => (if greater then decide (threshold < x) else decide (x < threshold)) && v)
    data valid
  fraction_from_mask binary valid true

/-- Errors surfaced by the mask engine and the execution context. -/
inductive PyErr where
  | valueError
  | typeError
  | attributeError
  | keyError
deriving DecidableEq

/-- `binary_mask[i:i+patch_size, j:j+patch_size]` (masks.py line 71). -/
def slice2 {α : Type} (g : List (List α)) (i j patch_size : Nat) : List (List α) :=
  ((g.drop i).take patch_size).map (fun row => (row.drop j).take patch_size)

/-- `np.pad(m, ((0, ps - h), (0, ps - w)), constant_values = bg)`:
pad at the trailing edge up to `patch_size × patch_size`. -/
def pad2 {α : Type} (m : List (List α)) (patch_size : Nat) (bg : α) : List (List α) :=
  let rows := m.map (fun row => row ++ List.replicate (patch_size - row.length) bg)
  rows ++ List.replicate (patch_size - rows.length) (List.replicate patch_size bg)

/-- Shape test `mask_patch.shape == (patch_size, patch_size)`. -/
def shapeIs {α : Type} (m : List (List α)) (patch_size : Nat) : Bool :=
  m.length = patch_size && m.all (fun row => row.length = patch_size)

/-- The validity array derived by `masks.get_binary_mask_fraction`
(lines 81-84): the supplied `valid_pixels` if any, else `patch != nodata`,
else a `ValueError` when neither is supplied. -/
def gbmfValidPixels {α : Type} [DecidableEq α] (valid_pixels : Option (List (List Bool)))
    (patch : Option (List (List α))) (nodata : α) : Except PyErr (List (List Bool)) :=
  match valid_pixels with
  | some vp => .ok vp
  | none =>
    match patch with
    | none => .error .valueError
    | some p => .ok (p.map (fun row => row.map (fun x => decide (x ≠ nodata))))

/-- `masks.get_binary_mask_fraction`: fraction of `target_value` pixels of a
binary-mask window among valid pixels, with trailing-edge padding by
`background_value`, short-circuiting to `default_fraction` when the mask is
absent, raising when neither `valid_pixels` nor `patch` is given, and `0.0`
when no pixel is valid. -/
def get_binary_mask_fraction {α : Type} [DecidableEq α]
    (binary_mask : Option (List (List α))) (i j : Nat)
    (patch : Option (List (List α))) (patch_size : Nat) (nodata : α)
    (target_value : α) (background_value : α) (default_fraction : ℚ)
    (valid_pixels : Option (List (List Bool))) : Except PyErr ℚ :=
  match binary_mask with
  | none => .ok default_fraction
  | some bm =>
    let mask_patch0 := slice2 bm i j patch_size
    let mask_patch := if shapeIs mask_patch0 patch_size then mask_patch0
                      else pad2 mask_patch0 patch_size background_value
    match gbmfValidPixels valid_pixels patch nodata with
    | .error e => .error e
    | .ok vp =>
      let valid_count := countTrue2 vp
      if valid_count = 0 then .ok 0
      else
        .ok (((List.zipWith
                (fun mrow vrow =>
                  (List.zipWith (fun x b => decide (x = target_value) && b) mrow vrow).countP id)
                mask_patch vp).sum : ℚ) / (valid_count : ℚ))

/-! ## Radiometric normalization (`core/transforms.py`)

`np.log10`, `np.percentile` and the float→uint8 cast are external numpy
services; the functions below are parametric in them (`log10`, `percentile`,
`castU8`), embedding exactly the repository's composition of those calls. -/

/-- Modelled from the spec: `LOG_EPS`, the "small positive floor preventing
`-∞` for zero/near-zero samples", is imported from `configs/constants.py`
but absent from the sources; the spec fixes only that it is small and
positive, so it is modelled as `10⁻⁶`. -/
def LOG_EPS : ℚ := 1 / 1000000

/-- `transforms.log10_eps`: `np.log10(np.maximum(img, LOG_EPS))`. -/
def log10_eps (log10 : ℚ → ℚ) (x : ℚ) : ℚ := log10 (max x LOG_EPS)

/-- `transforms.sar_log10`: `20 * log10_eps(img * scale_factor)`. -/
def sar_log10 (log10 : ℚ → ℚ) (x scale_factor : ℚ) : ℚ :=
  20 * log10_eps log10 (x * scale_factor)

/-- `transforms.clip_percentile`: `np.clip(img, lo, hi)`. -/
def clip_percentile (x lo hi : ℚ) : ℚ := min (max x lo) hi

/-- `transforms.normalize_percentile`: `(img - lo) / (hi - lo) * 255`. -/
def normalize_percentile (x lo hi : ℚ) : ℚ := (x - lo) / (hi - lo) * 255

/-- Per-sample validity of `sar_up_contrast_convert_to_uint8_pval`
(line 27): finite (always, in the rational model), not `nodata`, positive,
and scaled value strictly above the epsilon floor. -/
def pvalValid (nodata scale_factor x : ℚ) : Bool :=
  decide (x ≠ nodata) && decide (0 < x) && decide (LOG_EPS < x * scale_factor)

/-- `transforms.sar_up_contrast_convert_to_uint8_pval`: the per-patch SAR
normalization with precomputed percentile values.  Output starts as
`np.zeros`; only valid samples are overwritten with the normalized clipped
dB value cast to uint8. -/
def sar_up_contrast_convert_to_uint8_pval (log10 : ℚ → ℚ) (castU8 : ℚ → ℤ)
    (img : List ℚ) (low_percentile_val high_percentile_val scale_factor nodata : ℚ) :
    List ℤ :=
  if img.all (fun x => !(pvalValid nodata scale_factor x)) then
    img.map (fun _ => 0)
  else
    img.map (fun x =>
      if pvalValid nodata scale_factor x then
        castU8 (normalize_percentile
          (clip_percentile (sar_log10 log10 x scale_factor)
            low_percentile_val high_percentile_val)
          low_percentile_val high_percentile_val)
      else 0)

/-- Per-sample validity of `sar_up_contrast_convert_to_uint8_p` (line 50):
finite, not `nodata`, positive — with no epsilon-floor conjunct. -/
def pValid (nodata x : ℚ) : Bool :=
  decide (x ≠ nodata) && decide (0 < x)

/-- The argument `img_db[valid]` passed to `np.percentile` by
`sar_up_contrast_convert_to_uint8_p` (line 57): the dB values of exactly
the samples that are not `nodata` and positive. -/
def sar_p_percentile_input (log10 : ℚ → ℚ) (img : List ℚ) (scale_factor nodata : ℚ) :
    List ℚ :=
  (img.filter (fun x => pValid nodata x)).map (fun x => sar_log10 log10 x scale_factor)

/-- `transforms.sar_up_contrast_convert_to_uint8_p`: normalization with
percentiles computed per call from the window itself.  After clipping the
whole dB array to the percentile pair, only valid positions are normalized;
the whole array — including the unnormalized clipped dB values at invalid
positions — is cast to uint8. -/
def sar_up_contrast_convert_to_uint8_p (log10 : ℚ → ℚ) (castU8 : ℚ → ℤ)
    (percentile : List ℚ → ℚ → ℚ) (img : List ℚ)
    (low_percentile high_percentile scale_factor nodata : ℚ) : List ℤ :=
  if img.all (fun x => !(pValid nodata x)) then
    img.map (fun _ => 0)
  else
    let pin := sar_p_percentile_input log10 img scale_factor nodata
    let vmin := percentile pin low_percentile
    let vmax := percentile pin high_percentile
    img.map (fun x =>
      let d := clip_percentile (sar_log10 log10 x scale_factor) vmin vmax
      if pValid nodata x then castU8 (normalize_percentile d vmin vmax) else castU8 d)

/-! ## Execution Context (`pipelines/context.py`, `pipelines/config.py`) -/

/-- A Python value as stored in the `extra` mapping: scalars or nested
string-keyed mappings. -/
inductive PyVal where
  | none
  | bool (b : Bool)
  | int (n : ℤ)
  | rat (q : ℚ)
  | str (s : String)
  | map (kvs : List (String × PyVal))

/-- `isinstance(v, Mapping)`. -/
def PyVal.isMapping : PyVal → Bool
  | .map _ => true
  | _ => false

/-- `config.RESERVED = {"patch"}`. -/
def RESERVED : List String := ["patch"]

/-- `config.PatchIterPipelineConfig`: the immutable per-run configuration. -/
structure PatchIterPipelineConfig where
  patch_size : Nat
  patch_dtype : String
  out_dir : String
  img_name : String
  crs : PyVal := .none
  nodata : PyVal := .none
  pad_value : PyVal := .int 0
  step : Option Nat := Option.none
  bands : PyVal := .none
  gc_every : Nat := 1000

/-- Python dict lookup on the `extra` mapping (first binding wins, matching
dict semantics since keys are unique). -/
def lookupStr (kvs : List (String × PyVal)) (k : String) : Option PyVal :=
  match kvs with
  | [] => Option.none
  | (k', v) :: rest => if k' = k then some v else lookupStr rest k

/-- `Context._validate_extra` (context.py lines 67-78): every top-level
value of `extra` — reserved keys such as `"patch"` included — must be a
mapping; the first non-mapping raises `TypeError`. -/
def validate_extra : List (String × PyVal) → Except PyErr Unit
  | [] => .ok ()
  | (k, v) :: rest =>
    if RESERVED.contains k then
      if !v.isMapping then .error .typeError else validate_extra rest
    else if !v.isMapping then .error .typeError
    else validate_extra rest

/-- The (already validated) context record: base configuration plus the
per-call `extra` overlay. -/
structure Context where
  cfg : PatchIterPipelineConfig
  extra : List (String × PyVal)

/-- Context construction: the frozen dataclass' `__post_init__` validates
`extra` before the object becomes available, so an invalid `extra` raises
at construction time. -/
def Context.make (cfg : PatchIterPipelineConfig) (extra : List (String × PyVal)) :
    Except PyErr Context :=
  match validate_extra extra with
  | .error e => .error e
  | .ok _ => .ok ⟨cfg, extra⟩

/-- `getattr(cfg, name)` on the frozen dataclass: resolves the literal
field names of `PatchIterPipelineConfig`, `AttributeError` otherwise. -/
def cfgGetattr (cfg : PatchIterPipelineConfig) (name : String) : Except PyErr PyVal :=
  if name = "patch_size" then .ok (.int cfg.patch_size)
  else if name = "patch_dtype" then .ok (.str cfg.patch_dtype)
  else if name = "out_dir" then .ok (.str cfg.out_dir)
  else if name = "img_name" then .ok (.str cfg.img_name)
  else if name = "crs" then .ok cfg.crs
  else if name = "nodata" then .ok cfg.nodata
  else if name = "pad_value" then .ok cfg.pad_value
  else if name = "step" then .ok (match cfg.step with | some s => .int s | Option.none => .none)
  else if name = "bands" then .ok cfg.bands
  else if name = "gc_every" then .ok (.int cfg.gc_every)
  else .error .attributeError

/-- `Context.__getattr__` (context.py lines 35-39): if `name` is a
*top-level* key of `extra`, return its value (dicts are wrapped in the `NS`
view, which does not change the value looked up); otherwise delegate to
`getattr(self.cfg, name)`. -/
def Context.getattr (ctx : Context) (name : String) : Except PyErr PyVal :=
  match lookupStr ctx.extra name with
  | some v => .ok v
  | Option.none => cfgGetattr ctx.cfg name

/-- `NS.__getattr__` (context.py lines 15-17): lookup in the wrapped dict
only — a missing key raises `KeyError`; there is no fall-through to the
base configuration from inside a component's sub-mapping. -/
def NS.getattr (d : List (String × PyVal)) (name : String) : Except PyErr PyVal :=
  match lookupStr d name with
  | some v => .ok v
  | Option.none => .error .keyError

/-! ## Patch Extraction Engine (`pipelines/patches.py`)

`cut_patches` is embedded parametrically: the patch type `α`, the per-window
context type `γ` and the metadata-record type `ρ` are type parameters;
`patchOf w` models `pad_to_square(ds.read(window), ...)` (lines 67-75) and
`mkCtx w` models the deterministic per-window context assembly
(lines 76-92, including the external `window_center_longlat` and
`ds.window_transform` calls).  Stage callbacks keep their source
signatures; the `None` defaults of `writer_fn`/`metadata_fn` are `Option`s,
and calling a `None` callback is the `TypeError` Python raises. -/

/-- A `rasterio.windows.Window(col_off, row_off, width, height)`. -/
structure PyWindow where
  col_off : Nat
  row_off : Nat
  width : Nat
  height : Nat
deriving DecidableEq, Repr

/-- Errors a `cut_patches` run can raise in this model. -/
inductive PatchErr where
  | writerNotCallable
  | metadataNotCallable
deriving DecidableEq

/-- The filter loop (lines 96-99 and 110-114): evaluate filters in order,
stopping at the first `False`.  Returns `(skip, number of filters
invoked)`. -/
def runFilterChain {α γ : Type} (fs : List (α → γ → Bool)) (patch : α) (c : γ) :
    Bool × Nat :=
  match fs with
  | [] => (false, 0)
  | f :: rest =>
    if f patch c then
      let r := runFilterChain rest patch c
      (r.1, r.2 + 1)
    else (true, 1)

/-- Observable outcome of one window's trip through the stage pipeline:
how many pre/post filters ran, whether the transform ran, whether the
writer was invoked, and the metadata record appended (if any). -/
structure WinRes (ρ : Type) where
  win : PyWindow
  preEval : Nat
  transformRan : Bool
  postEval : Nat
  wrote : Bool
  recd : Option ρ

/-- One window's pipeline (lines 94-119): pre-transform filters, optional
transform (whose `None` result skips the window), post-transform filters,
then writer and metadata function. -/
def processWindow {α γ ρ : Type} (patchOf : PyWindow → α) (mkCtx : PyWindow → γ)
    (filters_before filters_after : List (α → γ → Bool))
    (transform : Option (α → γ → Option α))
    (writer_fn : Option (α → γ → Unit)) (metadata_fn : Option (γ → ρ))
    (w : PyWindow) : Except PatchErr (WinRes ρ) :=
  let patch := patchOf w
  let c := mkCtx w
  let pre := runFilterChain filters_before patch c
  if pre.1 then .ok ⟨w, pre.2, false, 0, false, Option.none⟩
  else
    let afterTransform : α → Bool → Except PatchErr (WinRes ρ) := fun p2 tran =>
      let post := runFilterChain filters_after p2 c
      if post.1 then .ok ⟨w, pre.2, tran, post.2, false, Option.none⟩
      else
        match writer_fn with
        | Option.none => .error .writerNotCallable
        | some wfn =>
          let _ := wfn p2 c
          match metadata_fn with
          | Option.none => .error .metadataNotCallable
          | some mfn => .ok ⟨w, pre.2, tran, post.2, true, some (mfn c)⟩
    match transform with
    | Option.none => afterTransform patch false
    | some t =>
      match t patch c with
      | Option.none => .ok ⟨w, pre.2, true, 0, false, Option.none⟩
      | some p2 => afterTransform p2 true

/-- Whether a window is fully accepted (passes both filter chains and the
transform yields a value). -/
def acceptedWin {α γ : Type} (patchOf : PyWindow → α) (mkCtx : PyWindow → γ)
    (filters_before filters_after : List (α → γ → Bool))
    (transform : Option (α → γ → Option α)) (w : PyWindow) : Bool :=
  let patch := patchOf w
  let c := mkCtx w
  if (runFilterChain filters_before patch c).1 then false
  else
    match transform with
    | Option.none => !(runFilterChain filters_after patch c).1
    | some t =>
      match t patch c with
      | Option.none => false
      | some p2 => !(runFilterChain filters_after p2 c).1

/-- The window traversal of lines 59-62: `for i in range(0, H, step): for j
in range(0, W, step)`, each window `Window(j, i, min(ps, W-j), min(ps, H-i))`. -/
def visitedWindows (H W step patch_size : Nat) : List PyWindow :=
  (pyRange H step).flatMap (fun i =>
    (pyRange W step).map (fun j =>
      ⟨j, i, min patch_size (W - j), min patch_size (H - i)⟩))

/-- The main loop of `cut_patches` over a list of windows, returning every
window's observable outcome (the run's trace); a raised error aborts the
run, discarding the metadata accumulated so far, exactly as a Python
exception would. -/
def cutPatchesGo {α γ ρ : Type} (patchOf : PyWindow → α) (mkCtx : PyWindow → γ)
    (filters_before filters_after : List (α → γ → Bool))
    (transform : Option (α → γ → Option α))
    (writer_fn : Option (α → γ → Unit)) (metadata_fn : Option (γ → ρ)) :
    List PyWindow → Except PatchErr (List (WinRes ρ))
  | [] => .ok []
  | w :: ws =>
    match processWindow patchOf mkCtx filters_before filters_after transform
        writer_fn metadata_fn w with
    | .error e => .error e
    | .ok r =>
      match cutPatchesGo patchOf mkCtx filters_before filters_after transform
          writer_fn metadata_fn ws with
      | .error e => .error e
      | .ok rs => .ok (r :: rs)

/-- The effective step of line 50: `cfg.step if cfg.step is not None else
cfg.patch_size`. -/
def stepOf (cfg : PatchIterPipelineConfig) : Nat :=
  match cfg.step with
  | some s => s
  | Option.none => cfg.patch_size

/-- `cut_patches` (lines 26-125): effective step `cfg.step or
cfg.patch_size`, row-major traversal, per-window stage pipeline, returning
the accumulated metadata list. -/
def cut_patches {α γ ρ : Type} (H W : Nat) (cfg : PatchIterPipelineConfig)
    (patchOf : PyWindow → α) (mkCtx : PyWindow → γ)
    (filters_before filters_after : List (α → γ → Bool))
    (transform : Option (α → γ → Option α))
    (writer_fn : Option (α → γ → Unit)) (metadata_fn : Option (γ → ρ)) :
    Except PatchErr (List ρ) :=
  match cutPatchesGo patchOf mkCtx filters_before filters_after transform
      writer_fn metadata_fn (visitedWindows H W (stepOf cfg) cfg.patch_size) with
  | .error e => .error e
  | .ok rs => .ok (rs.filterMap (fun r => r.recd))

/-! ## Memory-bounded Window Reader (`geo/raster.py`)

A raster's pixel content is an abstract grid `g : Nat → Nat → ℤ`;
`rasterRead g w` is the windowed read `raster.read(band, window=w)` of the
external raster contract (row-major rows of the window). -/

/-- `raster.read(band, window = w)`: the rows
`w.row_off … w.row_off + w.height - 1` restricted to columns
`w.col_off … w.col_off + w.width - 1`. -/
def rasterRead (g : Nat → Nat → ℤ) (w : PyWindow) : List (List ℤ) :=
  (List.range w.height).map (fun r =>
    (List.range w.width).map (fun c => g (w.row_off + r) (w.col_off + c)))

/-- `raster.estimate_window_size_gb(window, dtype_bytes=2)`:
`width * height * dtype_bytes / 1024³`. -/
def estimate_window_size_gb (w : PyWindow) (dtype_bytes : Nat := 2) : ℚ :=
  ((w.width : ℚ) * (w.height : ℚ) * (dtype_bytes : ℚ)) / (1024 * 1024 * 1024)

/-- `raster.read_raster_window_chunked` (lines 89-121): estimate the window
size — the call on line 94 passes no `dtype_bytes`, so the 2-byte default
is always used — and either read the window in one shot or read row-chunks
of `chunk_height` rows and `np.vstack` them. -/
def read_raster_window_chunked (g : Nat → Nat → ℤ) (w : PyWindow)
    (max_size_gb : ℚ) (chunk_height : Nat) : List (List ℤ) :=
  if estimate_window_size_gb w > max_size_gb then
    ((pyRange w.height chunk_height).map (fun row_start =>
      rasterRead g ⟨w.col_off, w.row_off + row_start, w.width,
                    min chunk_height (w.height - row_start)⟩)).flatten
  else
    rasterRead g w

/-! ## Overlay Density Engine (`datasets/ghsl.py`)

External contract of the reprojection service (§6 of the spec):
nearest-neighbour reprojection of the same source into a destination grid
is a pure function of the destination cell's georeferenced position, so
reprojecting into a sub-window's transform yields the restriction of the
full-grid reprojection.  `repro r c` is the value the reprojected secondary
raster takes at primary-grid cell `(r, c)`. -/

/-- `ghsl.iter_windows(width, height, block)`: row-major fixed-size square
blocks covering the `(height, width)` grid, trailing blocks shorter. -/
def iter_windows (width height block : Nat) : List PyWindow :=
  (pyRange height block).flatMap (fun row_off =>
    (pyRange width block).map (fun col_off =>
      ⟨col_off, row_off, min block (width - col_off), min block (height - row_off)⟩))

/-- Per-block contribution of `detect_buildings_chunked` (lines 133-140):
`(valid-pixel count, above-threshold count)` of the reprojected block. -/
def blockCounts (repro : Nat → Nat → ℤ) (nodata : Option ℤ) (filter_value : ℤ)
    (win : PyWindow) : Nat × Nat :=
  match nodata with
  | some nd =>
    (((rasterRead repro win).flatten).countP (fun x => decide (x ≠ nd)),
     ((rasterRead repro win).flatten).countP
       (fun x => decide (filter_value < x) && decide (x ≠ nd)))
  | Option.none =>
    (win.height * win.width,
     ((rasterRead repro win).flatten).countP (fun x => decide (filter_value < x)))

/-- `ghsl.detect_buildings_chunked` (lines 115-148): accumulate valid and
above-threshold counts over the blocks of `iter_windows(W, H, block)` and
return `hits / total`, `0.0` when `total = 0`. -/
def detect_buildings_chunked (repro : Nat → Nat → ℤ) (H W : Nat)
    (nodata : Option ℤ) (filter_value : ℤ) (block : Nat) : ℚ :=
  let acc := (iter_windows W H block).foldl
    (fun acc win =>
      (acc.1 + (blockCounts repro nodata filter_value win).1,
       acc.2 + (blockCounts repro nodata filter_value win).2))
    (0, 0)
  if acc.1 = 0 then 0 else (acc.2 : ℚ) / (acc.1 : ℚ)

/-- The parameter names `filters.calculate_threshold_fraction` accepts
(filters.py lines 24-30). -/
def filters_calculate_threshold_fraction_params : List String :=
  ["data", "threshold", "nodata", "greater"]

/-- The keyword arguments `detect_buildings` passes on ghsl.py lines 59-65
to the `calculate_threshold_fraction` it imports from `core.filters`. -/
def detect_buildings_call_kwargs : List String :=
  ["data", "filter_value", "nodata", "greater", "strict"]

/-- The fraction `detect_buildings` intends: threshold the full reprojected
array at once via `calculate_threshold_fraction(..., greater=True,
strict=True)` — the (masks.py) signature its keyword arguments name. -/
def detect_buildings_reference (repro : Nat → Nat → ℤ) (H W : Nat)
    (nodata : Option ℤ) (filter_value : ℤ) : ℚ :=
  calculate_threshold_fraction ((rasterRead repro ⟨0, 0, W, H⟩).flatten)
    filter_value nodata true true

/-- `ghsl.detect_buildings` as written: every call applies
`filters.calculate_threshold_fraction` to keyword arguments
(`filter_value=`, `strict=`) that are not among its parameters, which is a
Python `TypeError` before any fraction is computed. -/
def detect_buildings (repro : Nat → Nat → ℤ) (H W : Nat)
    (nodata : Option ℤ) (filter_value : ℤ) : Except PyErr ℚ :=
  if detect_buildings_call_kwargs.all
      (fun k => filters_calculate_threshold_fraction_params.contains k) then
    .ok (detect_buildings_reference repro H W nodata filter_value)
  else
    .error .typeError

/-! ## Helper lemmas -/

theorem pyRange_zero (step : Nat) : pyRange 0 step = [] := by
  rw [pyRange]; simp

theorem pyRange_step_zero (n : Nat) : pyRange n 0 = [] := by
  rw [pyRange]; simp

theorem pyRange_pos {n step : Nat} (hs : 0 < step) (hn : 0 < n) :
    pyRange n step = 0 :: (pyRange (n - step) step).map (fun x => x + step) := by
  rw [pyRange]; simp [hs, hn]

/-- Membership in `pyRange`: exactly the multiples of `step` below `n`. -/
theorem mem_pyRange {step : Nat} (hs : 0 < step) :
    ∀ {n i : Nat}, i ∈ pyRange n step ↔ (∃ k, i = k * step) ∧ i < n := by
  intro n
  induction n using Nat.strong_induction_on with
  | _ n ih =>
    intro i
    by_cases hn : 0 < n
    · rw [pyRange_pos hs hn]
      simp only [List.mem_cons, List.mem_map]
      constructor
      · rintro (rfl | ⟨j, hj, rfl⟩)
        · exact ⟨⟨0, by simp⟩, hn⟩
        · obtain ⟨⟨k, rfl⟩, hlt⟩ := (ih (n - step) (by omega)).mp hj
          exact ⟨⟨k + 1, by ring⟩, by omega⟩
      · rintro ⟨⟨k, rfl⟩, hlt⟩
        cases k with
        | zero => left; simp
        | succ k' =>
          right
          refine ⟨k' * step, (ih (n - step) (by omega)).mpr ⟨⟨k', rfl⟩, ?_⟩, by ring⟩
          have : (k' + 1) * step = k' * step + step := by ring
          omega
    · have : n = 0 := by omega
      subst this
      simp [pyRange_zero]

/-- `pyRange` is strictly increasing. -/
theorem pyRange_sorted {step : Nat} (hs : 0 < step) :
    ∀ n, List.Pairwise (fun a b => a < b) (pyRange n step) := by
  intro n
  induction n using Nat.strong_induction_on with
  | _ n ih =>
    by_cases hn : 0 < n
    · rw [pyRange_pos hs hn]
      constructor
      · intro b hb
        simp only [List.mem_map] at hb
        obtain ⟨x, _, rfl⟩ := hb
        omega
      · exact (ih (n - step) (by omega)).map _ (fun a b h => by omega)
    · have : n = 0 := by omega
      subst this
      simp [pyRange_zero]

/-- Chunking a half-open index interval `[0, n)` into runs of `ch` indices
(last run shorter) and concatenating recovers the whole interval: the core
fact behind both the chunked window reader and the overlay block loop. -/
theorem pyRange_chunks_flatten {α : Type} {ch : Nat} (hch : 0 < ch) :
    ∀ (n : Nat) (f : Nat → α),
      ((pyRange n ch).map
        (fun off => (List.range (min ch (n - off))).map (fun k => f (off + k)))).flatten
      = (List.range n).map f := by
  intro n
  induction n using Nat.strong_induction_on with
  | _ n ih =>
    intro f
    by_cases hn : 0 < n
    · rw [pyRange_pos hch hn]
      simp only [List.map_cons, List.map_map, List.flatten_cons, Nat.zero_add, Nat.sub_zero]
      have hshift :
          (List.map
            ((fun off => (List.range (min ch (n - off))).map (fun k => f (off + k))) ∘
              (fun x => x + ch)) (pyRange (n - ch) ch)).flatten
          = ((pyRange (n - ch) ch).map
              (fun off =>
                (List.range (min ch ((n - ch) - off))).map (fun k => (fun x => f (ch + x)) (off + k)))).flatten := by
        congr 1
        apply List.map_congr_left
        intro off _
        simp only [Function.comp_apply]
        have h1 : n - (off + ch) = (n - ch) - off := by omega
        rw [h1]
        apply List.map_congr_left
        intro k _
        congr 1
        omega
      rw [hshift, ih (n - ch) (by omega) (fun x => f (ch + x))]
      by_cases hle : ch ≤ n
      · have hmin : min ch n = ch := by omega
        rw [hmin]
        have hsplit : n = ch + (n - ch) := by omega
        conv_rhs => rw [hsplit, List.range_add, List.map_append, List.map_map]
        simp [Function.comp]
      · have hmin : min ch n = n := by omega
        have h0 : n - ch = 0 := by omega
        rw [hmin, h0]
        simp
    · have : n = 0 := by omega
      subst this
      simp [pyRange_zero]

/-- The chunk row counts `min ch (n - off)` over a `pyRange` traversal sum
to `n`. -/
theorem pyRange_chunk_sizes_sum {ch : Nat} (hch : 0 < ch) (n : Nat) :
    ((pyRange n ch).map (fun off => min ch (n - off))).sum = n := by
  have h := pyRange_chunks_flatten hch n (fun _ => ())
  have hlen := congrArg List.length h
  simp only [List.length_flatten, List.map_map, Function.comp_def, List.length_map,
    List.length_range] at hlen
  exact hlen


/-- Reading a window in row-chunks and concatenating recovers the
single-shot read. -/
theorem rasterRead_chunks (g : Nat → Nat → ℤ) (col row width : Nat) {ch : Nat}
    (hch : 0 < ch) (h : Nat) :
    ((pyRange h ch).map (fun row_start =>
      rasterRead g ⟨col, row + row_start, width, min ch (h - row_start)⟩)).flatten
    = rasterRead g ⟨col, row, width, h⟩ := by
  have key := pyRange_chunks_flatten hch h
    (fun r => (List.range width).map (fun c => g (row + r) (col + c)))
  calc ((pyRange h ch).map (fun row_start =>
          rasterRead g ⟨col, row + row_start, width, min ch (h - row_start)⟩)).flatten
      = ((pyRange h ch).map (fun off =>
          (List.range (min ch (h - off))).map (fun k =>
            (List.range width).map (fun c => g (row + (off + k)) (col + c))))).flatten := by
        congr 1
        apply List.map_congr_left
        intro off _
        unfold rasterRead
        apply List.map_congr_left
        intro r _
        rw [Nat.add_assoc]
    _ = (List.range h).map (fun r => (List.range width).map (fun c => g (row + r) (col + c))) := key
    _ = rasterRead g ⟨col, row, width, h⟩ := rfl

/-- Double sums over lists commute. -/
theorem sum_map_swap {α β : Type} (l₁ : List α) (l₂ : List β) (f : α → β → Nat) :
    (l₁.map (fun a => (l₂.map (fun b => f a b)).sum)).sum
    = (l₂.map (fun b => (l₁.map (fun a => f a b)).sum)).sum := by
  induction l₁ with
  | nil =>
    simp only [List.map_nil, List.sum_nil]
    symm
    apply List.sum_eq_zero
    simp
  | cons a t ih =>
    simp only [List.map_cons, List.sum_cons, ih]
    rw [← List.sum_map_add]

/-- Zipping two maps of the same list pointwise. -/
theorem zipWith_map_same {α β γ δ : Type} (l : List α) (f : α → β) (g : α → γ)
    (k : β → γ → δ) :
    List.zipWith k (l.map f) (l.map g) = l.map (fun x => k (f x) (g x)) := by
  induction l with
  | nil => rfl
  | cons x xs ih => simp [ih]

/-- The accumulator loop of `detect_buildings_chunked` computes the sums of
the per-block counts. -/
theorem detect_chunk_foldl (repro : Nat → Nat → ℤ) (nodata : Option ℤ)
    (filter_value : ℤ) (l : List PyWindow) : ∀ a b : Nat,
    l.foldl (fun acc win =>
        (acc.1 + (blockCounts repro nodata filter_value win).1,
         acc.2 + (blockCounts repro nodata filter_value win).2)) (a, b)
      = (a + (l.map (fun win => (blockCounts repro nodata filter_value win).1)).sum,
         b + (l.map (fun win => (blockCounts repro nodata filter_value win).2)).sum) := by
  induction l with
  | nil => intro a b; simp
  | cons x xs ih =>
    intro a b
    simp only [List.foldl_cons, List.map_cons, List.sum_cons]
    rw [ih]
    simp [Nat.add_assoc]

/-- A window read holds `height * width` pixels. -/
theorem countP_flatten_rasterRead_true (g : Nat → Nat → ℤ) (win : PyWindow) :
    ((rasterRead g win).flatten).countP (fun _ => true) = win.height * win.width := by
  have h1 : ((rasterRead g win).flatten).countP (fun _ => true)
      = ((rasterRead g win).flatten).length := by
    rw [List.countP_true]
  rw [h1, List.length_flatten]
  unfold rasterRead
  rw [List.map_map]
  have h2 : (List.range win.height).map
      (List.length ∘ fun r => (List.range win.width).map (fun c => g (win.row_off + r) (win.col_off + c)))
      = (List.range win.height).map (fun _ => win.width) := by
    apply List.map_congr_left
    intro r _
    simp
  rw [h2]
  induction win.height with
  | zero => simp
  | succ n ih =>
    rw [List.range_succ, List.map_append, List.sum_append]
    simp [ih, Nat.succ_mul]

/-- Summing a per-pixel count over the blocks of `iter_windows` equals the
count over the full grid: the blocks partition the `(H, W)` index
rectangle. -/
theorem countP_blocks (g : Nat → Nat → ℤ) (p : ℤ → Bool) {B : Nat} (hB : 0 < B)
    (H W : Nat) :
    ((iter_windows W H B).map
      (fun win => ((rasterRead g win).flatten).countP p)).sum
    = ((rasterRead g ⟨0, 0, W, H⟩).flatten).countP p := by
  have stepA : ∀ win : PyWindow, ((rasterRead g win).flatten).countP p
      = ((List.range win.height).map (fun r =>
          ((List.range win.width).map
            (fun c => g (win.row_off + r) (win.col_off + c))).countP p)).sum := by
    intro win
    unfold rasterRead
    rw [List.countP_flatten, List.map_map]
    rfl
  have stepB : ∀ ri : Nat, ((pyRange W B).map (fun co =>
        ((List.range (min B (W - co))).map (fun c => g ri (co + c))).countP p)).sum
      = ((List.range W).map (fun c => g ri c)).countP p := by
    intro ri
    have key := congrArg (List.countP p) (pyRange_chunks_flatten hB W (fun c => g ri c))
    rw [List.countP_flatten, List.map_map] at key
    exact key
  have stepC : ∀ ro : Nat, ((pyRange W B).map (fun co =>
        ((rasterRead g ⟨co, ro, min B (W - co), min B (H - ro)⟩).flatten).countP p)).sum
      = ((rasterRead g ⟨0, ro, W, min B (H - ro)⟩).flatten).countP p := by
    intro ro
    calc ((pyRange W B).map (fun co =>
            ((rasterRead g ⟨co, ro, min B (W - co), min B (H - ro)⟩).flatten).countP p)).sum
        = ((pyRange W B).map (fun co => ((List.range (min B (H - ro))).map (fun r =>
            ((List.range (min B (W - co))).map
              (fun c => g (ro + r) (co + c))).countP p)).sum)).sum := by
          apply congrArg
          apply List.map_congr_left
          intro co _
          exact stepA _
      _ = ((List.range (min B (H - ro))).map (fun r => ((pyRange W B).map (fun co =>
            ((List.range (min B (W - co))).map
              (fun c => g (ro + r) (co + c))).countP p)).sum)).sum :=
          sum_map_swap _ _ _
      _ = ((List.range (min B (H - ro))).map (fun r =>
            ((List.range W).map (fun c => g (ro + r) c)).countP p)).sum := by
          apply congrArg
          apply List.map_congr_left
          intro r _
          exact stepB (ro + r)
      _ = ((rasterRead g ⟨0, ro, W, min B (H - ro)⟩).flatten).countP p := by
          rw [stepA ⟨0, ro, W, min B (H - ro)⟩]
          apply congrArg
          apply List.map_congr_left
          intro r _
          apply congrArg
          apply List.map_congr_left
          intro c _
          rw [Nat.zero_add]
  have stepD : ((pyRange H B).map (fun ro =>
        ((rasterRead g ⟨0, ro, W, min B (H - ro)⟩).flatten).countP p)).sum
      = ((rasterRead g ⟨0, 0, W, H⟩).flatten).countP p := by
    have key := congrArg (fun M : List (List ℤ) => (M.flatten).countP p)
      (rasterRead_chunks g 0 0 W hB H)
    simp only at key
    rw [← key]
    rw [List.countP_flatten, List.map_flatten, List.sum_flatten, List.map_map, List.map_map]
    apply congrArg
    apply List.map_congr_left
    intro ro _
    simp only [Function.comp, Nat.zero_add]
    rw [List.countP_flatten]
  unfold iter_windows
  rw [List.flatMap_def, List.map_flatten, List.sum_flatten, List.map_map, List.map_map]
  calc ((pyRange H B).map ((List.sum ∘ List.map (fun win => ((rasterRead g win).flatten).countP p)) ∘
          fun ro => (pyRange W B).map (fun co =>
            (⟨co, ro, min B (W - co), min B (H - ro)⟩ : PyWindow)))).sum
      = ((pyRange H B).map (fun ro =>
          ((rasterRead g ⟨0, ro, W, min B (H - ro)⟩).flatten).countP p)).sum := by
        apply congrArg
        apply List.map_congr_left
        intro ro _
        simp only [Function.comp, List.map_map]
        exact stepC ro
    _ = ((rasterRead g ⟨0, 0, W, H⟩).flatten).countP p := stepD

/-- `masks.calculate_threshold_fraction` with `greater=True, strict=True`
and a nodata value, in count form. -/
theorem calculate_threshold_fraction_gt_strict_some (data : List ℤ) (fv nd : ℤ) :
    calculate_threshold_fraction data fv (some nd) true true
      = if data.countP (fun x => decide (x ≠ nd)) = 0 then 0
        else (data.countP (fun x => decide (fv < x) && decide (x ≠ nd)) : ℚ)
              / (data.countP (fun x => decide (x ≠ nd)) : ℚ) := by
  simp only [calculate_threshold_fraction, validOf, countTrue, if_true]
  rw [zipWith_map_same, List.countP_map, List.countP_map]
  simp only [Function.comp_def, id_eq]

/-- `masks.calculate_threshold_fraction` with `greater=True, strict=True`
and no nodata value, in count form. -/
theorem calculate_threshold_fraction_gt_strict_none (data : List ℤ) (fv : ℤ) :
    calculate_threshold_fraction data fv Option.none true true
      = if data.length = 0 then 0
        else (data.countP (fun x => decide (fv < x)) : ℚ) / (data.length : ℚ) := by
  simp only [calculate_threshold_fraction, validOf, countTrue, if_true]
  rw [zipWith_map_same]
  simp only [Bool.and_true]
  rw [List.countP_map, List.countP_map]
  simp only [Function.comp_def, id_eq]
  simp [List.countP_true]

/-- `detect_buildings_chunked` with a nodata value, in counts over the full
reprojected grid. -/
theorem detect_buildings_chunked_counts_some (repro : Nat → Nat → ℤ) (H W : Nat)
    (nd fv : ℤ) {block : Nat} (hB : 0 < block) :
    detect_buildings_chunked repro H W (some nd) fv block
      = if ((rasterRead repro ⟨0, 0, W, H⟩).flatten).countP (fun x => decide (x ≠ nd)) = 0
        then 0
        else (((rasterRead repro ⟨0, 0, W, H⟩).flatten).countP
                (fun x => decide (fv < x) && decide (x ≠ nd)) : ℚ)
             / (((rasterRead repro ⟨0, 0, W, H⟩).flatten).countP
                (fun x => decide (x ≠ nd)) : ℚ) := by
  unfold detect_buildings_chunked
  rw [detect_chunk_foldl]
  simp only [Nat.zero_add, blockCounts]
  rw [countP_blocks repro (fun x => decide (x ≠ nd)) hB H W,
      countP_blocks repro (fun x => decide (fv < x) && decide (x ≠ nd)) hB H W]

/-- `detect_buildings_chunked` without a nodata value, in counts over the
full reprojected grid. -/
theorem detect_buildings_chunked_counts_none (repro : Nat → Nat → ℤ) (H W : Nat)
    (fv : ℤ) {block : Nat} (hB : 0 < block) :
    detect_buildings_chunked repro H W Option.none fv block
      = if ((rasterRead repro ⟨0, 0, W, H⟩).flatten).length = 0 then 0
        else (((rasterRead repro ⟨0, 0, W, H⟩).flatten).countP
                (fun x => decide (fv < x)) : ℚ)
             / (((rasterRead repro ⟨0, 0, W, H⟩).flatten).length : ℚ) := by
  unfold detect_buildings_chunked
  rw [detect_chunk_foldl]
  simp only [Nat.zero_add, blockCounts]
  have htot : (iter_windows W H block).map (fun win => win.height * win.width)
      = (iter_windows W H block).map
          (fun win => ((rasterRead repro win).flatten).countP (fun _ => true)) := by
    apply List.map_congr_left
    intro win _
    rw [countP_flatten_rasterRead_true]
  rw [htot, countP_blocks repro (fun _ => true) hB H W,
      countP_blocks repro (fun x => decide (fv < x)) hB H W]
  simp [List.countP_true]

/-- With both callbacks supplied, a window's pipeline never raises, and it
writes and records exactly when the window is accepted. -/
theorem processWindow_some {α γ ρ : Type} (patchOf : PyWindow → α) (mkCtx : PyWindow → γ)
    (fb fa : List (α → γ → Bool)) (tr : Option (α → γ → Option α))
    (wfn : α → γ → Unit) (mfn : γ → ρ) (w : PyWindow) :
    ∃ r : WinRes ρ,
      processWindow patchOf mkCtx fb fa tr (some wfn) (some mfn) w = .ok r
      ∧ r.win = w
      ∧ r.wrote = acceptedWin patchOf mkCtx fb fa tr w
      ∧ r.recd = (if acceptedWin patchOf mkCtx fb fa tr w = true
                  then some (mfn (mkCtx w)) else Option.none) := by
  simp only [processWindow, acceptedWin]
  by_cases hpre : (runFilterChain fb (patchOf w) (mkCtx w)).1 = true
  · simp only [hpre, if_true]
    exact ⟨_, rfl, rfl, rfl, rfl⟩
  · simp only [Bool.not_eq_true] at hpre
    simp only [hpre, Bool.false_eq_true, if_false]
    cases tr with
    | none =>
      by_cases hpost : (runFilterChain fa (patchOf w) (mkCtx w)).1 = true
      · simp only [hpost, if_true]
        exact ⟨_, rfl, rfl, by simp, by simp⟩
      · simp only [Bool.not_eq_true] at hpost
        simp only [hpost, Bool.false_eq_true, if_false]
        exact ⟨_, rfl, rfl, by simp, by simp⟩
    | some t =>
      cases ht : t (patchOf w) (mkCtx w) with
      | none =>
        simp only [ht]
        exact ⟨_, rfl, rfl, by simp, by simp⟩
      | some p2 =>
        simp only [ht]
        by_cases hpost : (runFilterChain fa p2 (mkCtx w)).1 = true
        · simp only [hpost, if_true]
          exact ⟨_, rfl, rfl, by simp, by simp⟩
        · simp only [Bool.not_eq_true] at hpost
          simp only [hpost, Bool.false_eq_true, if_false]
          exact ⟨_, rfl, rfl, by simp, by simp⟩

/-- With both callbacks supplied, the run over any window list succeeds and
its trace records the visited windows in order, with one record per write. -/
theorem cutPatchesGo_some {α γ ρ : Type} (patchOf : PyWindow → α) (mkCtx : PyWindow → γ)
    (fb fa : List (α → γ → Bool)) (tr : Option (α → γ → Option α))
    (wfn : α → γ → Unit) (mfn : γ → ρ) :
    ∀ ws : List PyWindow, ∃ rs : List (WinRes ρ),
      cutPatchesGo patchOf mkCtx fb fa tr (some wfn) (some mfn) ws = .ok rs
      ∧ rs.map WinRes.win = ws
      ∧ rs.filterMap WinRes.recd
          = ws.filterMap (fun w => if acceptedWin patchOf mkCtx fb fa tr w = true
              then some (mfn (mkCtx w)) else Option.none)
      ∧ ∀ r ∈ rs, r.wrote = acceptedWin patchOf mkCtx fb fa tr r.win
          ∧ r.recd = (if acceptedWin patchOf mkCtx fb fa tr r.win = true
                      then some (mfn (mkCtx r.win)) else Option.none) := by
  intro ws
  induction ws with
  | nil => exact ⟨[], rfl, rfl, rfl, by simp⟩
  | cons w ws' ih =>
    obtain ⟨r, hr, hwin, hwrote, hrecd⟩ :=
      processWindow_some patchOf mkCtx fb fa tr wfn mfn w
    obtain ⟨rs', hrs', hmap, hfm, hall⟩ := ih
    refine ⟨r :: rs', ?_, ?_, ?_, ?_⟩
    · simp only [cutPatchesGo, hr, hrs']
    · simp [hwin, hmap]
    · cases hacc : acceptedWin patchOf mkCtx fb fa tr w with
      | true =>
        rw [hacc] at hrecd
        simp only [if_true] at hrecd
        simp [List.filterMap_cons, hrecd, hfm, hacc]
      | false =>
        rw [hacc] at hrecd
        simp only [Bool.false_eq_true, if_false] at hrecd
        simp [List.filterMap_cons, hrecd, hfm, hacc]
    · intro x hx
      rcases List.mem_cons.mp hx with heq | hx'
      · subst heq
        rw [hwin]
        exact ⟨hwrote, hrecd⟩
      · exact hall x hx'

/-- `runFilterChain` stops at the first filter returning `False`: when the
filters before index `k` all pass and filter `k` rejects, exactly `k + 1`
filters are invoked and the window is skipped. -/
theorem runFilterChain_first_false {α γ : Type} (fs : List (α → γ → Bool)) (p : α) (c : γ) :
    ∀ (k : Nat) (hk : k < fs.length),
      (∀ i, i < k → ∀ hi : i < fs.length, fs.get ⟨i, hi⟩ p c = true) →
      fs.get ⟨k, hk⟩ p c = false →
      runFilterChain fs p c = (true, k + 1) := by
  induction fs with
  | nil => intro k hk; simp at hk
  | cons f rest ih =>
    intro k hk hall hkf
    cases k with
    | zero =>
      simp only [List.get] at hkf
      simp only [runFilterChain, hkf, Bool.false_eq_true, if_false]
    | succ k' =>
      have hf : f p c = true := by
        have := hall 0 (by omega) (by simp)
        simpa [List.get] using this
      have hrest := ih k' (by simpa using hk)
        (fun i hi hif => by
          have := hall (i + 1) (by omega) (by simpa using Nat.succ_lt_succ hif)
          simpa [List.get] using this)
        (by simpa [List.get] using hkf)
      simp only [runFilterChain, hf, if_true, hrest]

/-- A rejected window never raises — for any writer/metadata options — and
produces neither a write nor a record. -/
theorem processWindow_rejected {α γ ρ : Type} (patchOf : PyWindow → α) (mkCtx : PyWindow → γ)
    (fb fa : List (α → γ → Bool)) (tr : Option (α → γ → Option α))
    (wf : Option (α → γ → Unit)) (mf : Option (γ → ρ)) (w : PyWindow)
    (hacc : acceptedWin patchOf mkCtx fb fa tr w = false) :
    ∃ r : WinRes ρ, processWindow patchOf mkCtx fb fa tr wf mf w = .ok r
      ∧ r.wrote = false ∧ r.recd = Option.none := by
  simp only [processWindow]
  simp only [acceptedWin] at hacc
  by_cases hpre : (runFilterChain fb (patchOf w) (mkCtx w)).1 = true
  · simp only [hpre, if_true]
    exact ⟨_, rfl, rfl, rfl⟩
  · simp only [Bool.not_eq_true] at hpre
    rw [hpre] at hacc
    simp only [Bool.false_eq_true, if_false] at hacc
    simp only [hpre, Bool.false_eq_true, if_false]
    cases tr with
    | none =>
      have hpost : (runFilterChain fa (patchOf w) (mkCtx w)).1 = true := by
        simpa using hacc
      simp only [hpost, if_true]
      exact ⟨_, rfl, rfl, rfl⟩
    | some t =>
      cases ht : t (patchOf w) (mkCtx w) with
      | none =>
        simp only [ht]
        exact ⟨_, rfl, rfl, rfl⟩
      | some p2 =>
        simp only [ht] at hacc
        have hpost : (runFilterChain fa p2 (mkCtx w)).1 = true := by
          simpa using hacc
        simp only [ht, hpost, if_true]
        exact ⟨_, rfl, rfl, rfl⟩

/-- An accepted window with the default `writer_fn = None` raises the
not-callable `TypeError` at the writer invocation. -/
theorem processWindow_accepted_writer_none {α γ ρ : Type} (patchOf : PyWindow → α)
    (mkCtx : PyWindow → γ) (fb fa : List (α → γ → Bool))
    (tr : Option (α → γ → Option α)) (mf : Option (γ → ρ)) (w : PyWindow)
    (hacc : acceptedWin patchOf mkCtx fb fa tr w = true) :
    processWindow patchOf mkCtx fb fa tr Option.none mf w = .error .writerNotCallable := by
  simp only [acceptedWin] at hacc
  simp only [processWindow]
  by_cases hpre : (runFilterChain fb (patchOf w) (mkCtx w)).1 = true
  · rw [if_pos hpre] at hacc
    simp at hacc
  · simp only [Bool.not_eq_true] at hpre
    rw [hpre] at hacc
    simp only [Bool.false_eq_true, if_false] at hacc
    simp only [hpre, Bool.false_eq_true, if_false]
    cases tr with
    | none =>
      have hpost : (runFilterChain fa (patchOf w) (mkCtx w)).1 = false := by
        simpa using hacc
      simp [hpost]
    | some t =>
      cases ht : t (patchOf w) (mkCtx w) with
      | none =>
        simp only [ht] at hacc
        simp at hacc
      | some p2 =>
        simp only [ht] at hacc
        have hpost : (runFilterChain fa p2 (mkCtx w)).1 = false := by
          simpa using hacc
        simp only [ht]
        simp [hpost]

/-- One record per write, summed over any trace whose per-window records
match its writes. -/
theorem filterMap_length_countP {ρ : Type} (rs : List (WinRes ρ))
    (h : ∀ r ∈ rs, r.recd.isSome = r.wrote) :
    (rs.filterMap WinRes.recd).length = rs.countP (fun r => r.wrote) := by
  induction rs with
  | nil => rfl
  | cons r rest ih =>
    have hr := h r (by simp)
    have hrest := ih (fun x hx => h x (by simp [hx]))
    cases hw : r.wrote with
    | false =>
      rw [hw] at hr
      have hnone : r.recd = Option.none := by
        cases hc : r.recd
        · rfl
        · rw [hc] at hr; simp at hr
      simp [List.filterMap_cons, hnone, List.countP_cons, hw, hrest]
    | true =>
      rw [hw] at hr
      obtain ⟨v, hv⟩ := Option.isSome_iff_exists.mp hr
      simp [List.filterMap_cons, hv, List.countP_cons, hw, hrest]

/-! ## Claim theorems -/

/-- C5: for every window, memory budget, and chunk height ≥ 1: if the
estimated window size is within the budget, `read_raster_window_chunked`
performs a single read of the window and returns it directly; otherwise it
splits the window into consecutive row-chunks of `chunk_height` rows (the
last chunk possibly shorter), whose row counts sum to the window height,
reads them sequentially in row order and vertically concatenates them; and
the result always equals the single-shot read of the same window. -/
theorem read_raster_window_chunked_refines_single_read
    (g : Nat → Nat → ℤ) (w : PyWindow) (max_size_gb : ℚ) (chunk_height : Nat)
    (hch : 0 < chunk_height) :
    (((pyRange w.height chunk_height).map
        (fun rs => min chunk_height (w.height - rs))).sum = w.height) ∧
    (¬ estimate_window_size_gb w > max_size_gb →
      read_raster_window_chunked g w max_size_gb chunk_height = rasterRead g w) ∧
    (estimate_window_size_gb w > max_size_gb →
      read_raster_window_chunked g w max_size_gb chunk_height =
        ((pyRange w.height chunk_height).map (fun row_start =>
          rasterRead g ⟨w.col_off, w.row_off + row_start, w.width,
            min chunk_height (w.height - row_start)⟩)).flatten) ∧
    read_raster_window_chunked g w max_size_gb chunk_height = rasterRead g w := by
  obtain ⟨c0, r0, wd, ht⟩ := w
  refine ⟨pyRange_chunk_sizes_sum hch ht, ?_, ?_, ?_⟩
  · intro hle
    unfold read_raster_window_chunked
    rw [if_neg hle]
  · intro hgt
    unfold read_raster_window_chunked
    rw [if_pos hgt]
  · unfold read_raster_window_chunked
    split
    · exact rasterRead_chunks g c0 r0 wd hch ht
    · rfl

/-- C5 witness: a 5-row window read with chunk height 2 under a zero budget
(forcing the chunked path) equals the single-shot read. -/
theorem read_raster_window_chunked_refines_single_read_witness :
    read_raster_window_chunked (fun r c => (r : ℤ) * 100 + c) ⟨1, 2, 3, 5⟩ 0 2
      = rasterRead (fun r c => (r : ℤ) * 100 + c) ⟨1, 2, 3, 5⟩ :=
  (read_raster_window_chunked_refines_single_read
    (fun r c => (r : ℤ) * 100 + c) ⟨1, 2, 3, 5⟩ 0 2 (by norm_num)).2.2.2

/-- C9 counterexample: the size estimate driving the chunking decision uses
the 2-bytes-per-sample default of `estimate_window_size_gb` — for a raster
whose actual sample type is 1 byte (e.g. the uint8 GHSL grid), a 1×1
window's estimate is 2/1024³ GB while width × height × actual
bytes-per-sample is 1/1024³ GB. -/
theorem estimate_window_size_gb_dtype_counterexample :
    estimate_window_size_gb ⟨0, 0, 1, 1⟩ = 2 / (1024 * 1024 * 1024) ∧
    estimate_window_size_gb ⟨0, 0, 1, 1⟩ 1 = 1 / (1024 * 1024 * 1024) ∧
    estimate_window_size_gb ⟨0, 0, 1, 1⟩ ≠ estimate_window_size_gb ⟨0, 0, 1, 1⟩ 1 := by
  refine ⟨?_, ?_, ?_⟩ <;> norm_num [estimate_window_size_gb]

/-- C9 amended: the size estimate used by `read_raster_window_chunked` to
decide whether to chunk is always width × height × 2 bytes (the uint16
default of `estimate_window_size_gb`; the call passes no dtype), and for a
non-empty window it coincides with width × height × bytes-per-sample of the
raster's actual sample type exactly when that sample type has 2 bytes. -/
theorem estimate_window_size_gb_fixed_dtype (w : PyWindow) (dtype_bytes : Nat)
    (hpix : 0 < w.width * w.height) :
    estimate_window_size_gb w =
      ((w.width : ℚ) * (w.height : ℚ) * 2) / (1024 * 1024 * 1024) ∧
    (estimate_window_size_gb w dtype_bytes = estimate_window_size_gb w ↔
      dtype_bytes = 2) := by
  have ha : ((w.width : ℚ) * (w.height : ℚ)) ≠ 0 := by
    have h0 : (0 : ℚ) < (w.width : ℚ) * (w.height : ℚ) := by exact_mod_cast hpix
    exact h0.ne'
  constructor
  · norm_num [estimate_window_size_gb]
  · constructor
    · intro h
      unfold estimate_window_size_gb at h
      rw [div_eq_div_iff (by norm_num) (by norm_num)] at h
      have h1 : ((w.width : ℚ) * (w.height : ℚ)) * (dtype_bytes : ℚ)
          = ((w.width : ℚ) * (w.height : ℚ)) * ((2 : Nat) : ℚ) := by
        have h2 := mul_right_cancel₀ (b := (1024 * 1024 * 1024 : ℚ)) (by norm_num) h
        push_cast at h2 ⊢
        linarith
      have h3 : (dtype_bytes : ℚ) = ((2 : Nat) : ℚ) := mul_left_cancel₀ ha h1
      exact_mod_cast h3
    · rintro rfl
      rfl

/-- C9 amended witness: a 3×4 window of a 1-byte raster. -/
theorem estimate_window_size_gb_fixed_dtype_witness :
    estimate_window_size_gb ⟨0, 0, 3, 4⟩ =
      ((3 : ℚ) * (4 : ℚ) * 2) / (1024 * 1024 * 1024) ∧
    (estimate_window_size_gb ⟨0, 0, 3, 4⟩ 1 = estimate_window_size_gb ⟨0, 0, 3, 4⟩ ↔
      (1 : Nat) = 2) :=
  estimate_window_size_gb_fixed_dtype ⟨0, 0, 3, 4⟩ 1 (by norm_num)

/-- C3: every fraction-computing operation (`patch_value_fraction`,
`calculate_threshold_fraction` in both its masks.py and filters.py
variants, `get_binary_mask_fraction`, `fraction_from_mask`) returns exactly
`0.0` when the count of valid pixels is zero — in particular on an
all-nodata array — as a value, never NaN and never an error. -/
theorem fraction_ops_zero_when_no_valid :
    (∀ (patch : List ℚ) (fv : ℚ) (nodata : Option ℚ) (vp : Option (List Bool)),
      countTrue (pvfValidPixels patch nodata vp) = 0 →
      patch_value_fraction patch fv nodata vp = 0) ∧
    (∀ (data : List ℚ) (fv : ℚ) (nodata : Option ℚ) (greater strict : Bool),
      countTrue (validOf nodata data) = 0 →
      calculate_threshold_fraction data fv nodata greater strict = 0) ∧
    (∀ (bm : List ℚ) (vp : List Bool) (tv : ℚ),
      countTrue vp = 0 → fraction_from_mask bm vp tv = 0) ∧
    (∀ (data : List ℚ) (th : ℚ) (nodata : Option ℚ) (greater : Bool),
      countTrue (validOf nodata data) = 0 →
      calculate_threshold_fraction_filters data th nodata greater = 0) ∧
    (∀ (bm : List (List ℚ)) (i j ps : Nat) (patch : Option (List (List ℚ)))
       (nodata tv bg df : ℚ) (vpo : Option (List (List Bool))) (vp : List (List Bool)),
      gbmfValidPixels vpo patch nodata = .ok vp → countTrue2 vp = 0 →
      get_binary_mask_fraction (some bm) i j patch ps nodata tv bg df vpo = .ok 0) ∧
    (∀ (data : List ℚ) (nd fv : ℚ) (greater strict : Bool),
      (∀ x ∈ data, x = nd) →
      calculate_threshold_fraction data fv (some nd) greater strict = 0) := by
  have hffm : ∀ (bm : List ℚ) (vp : List Bool) (tv : ℚ),
      countTrue vp = 0 → fraction_from_mask bm vp tv = 0 := by
    intro bm vp tv h
    simp [fraction_from_mask, h]
  have hallnd : ∀ (data : List ℚ) (nd : ℚ), (∀ x ∈ data, x = nd) →
      countTrue (validOf (some nd) data) = 0 := by
    intro data nd h
    unfold countTrue validOf
    rw [List.countP_map, List.countP_eq_zero]
    intro a ha
    simp [h a ha]
  refine ⟨?_, ?_, hffm, ?_, ?_, ?_⟩
  · intro patch fv nodata vp h
    simp [patch_value_fraction, h]
  · intro data fv nodata greater strict h
    simp [calculate_threshold_fraction, countTrue] at h ⊢
    simp [h]
  · intro data th nodata greater h
    simp only [calculate_threshold_fraction_filters]
    simp [fraction_from_mask, h]
  · intro bm i j ps patch nodata tv bg df vpo vp hvp h
    simp [get_binary_mask_fraction, hvp, h]
  · intro data nd fv greater strict h
    have h0 := hallnd data nd h
    simp [calculate_threshold_fraction, countTrue] at h0 ⊢
    simp [h0]

/-- C3 witness: concrete all-nodata / no-valid-pixel inputs for each
operation. -/
theorem fraction_ops_zero_when_no_valid_witness :
    patch_value_fraction [(3 : ℚ), 3] 1 (some 3) Option.none = 0 ∧
    calculate_threshold_fraction [(5 : ℚ)] 2 (some 5) true false = 0 ∧
    fraction_from_mask [(1 : ℚ)] [false] 1 = 0 ∧
    calculate_threshold_fraction_filters [(2 : ℚ)] 0 (some 2) true = 0 ∧
    get_binary_mask_fraction (some [[(1 : ℚ)]]) 0 0 (some [[(7 : ℚ)]]) 1 7 1 0 (1 / 2)
      Option.none = .ok 0 ∧
    calculate_threshold_fraction [(4 : ℚ), 4] 9 (some 4) false true = 0 :=
  ⟨fraction_ops_zero_when_no_valid.1 [(3 : ℚ), 3] 1 (some 3) Option.none (by decide),
   fraction_ops_zero_when_no_valid.2.1 [(5 : ℚ)] 2 (some 5) true false (by decide),
   fraction_ops_zero_when_no_valid.2.2.1 [(1 : ℚ)] [false] 1 (by decide),
   fraction_ops_zero_when_no_valid.2.2.2.1 [(2 : ℚ)] 0 (some 2) true (by decide),
   fraction_ops_zero_when_no_valid.2.2.2.2.1 [[(1 : ℚ)]] 0 0 1 (some [[(7 : ℚ)]]) 7 1 0
     (1 / 2) Option.none [[false]] (by rfl) (by decide),
   fraction_ops_zero_when_no_valid.2.2.2.2.2 [(4 : ℚ), 4] 4 9 false true (by decide)⟩

/-- C7: constructing a `Context` whose `extra` mapping contains any
top-level non-mapping value — the reserved key `"patch"` as a scalar
included — raises `TypeError` at construction time, and construction
succeeds when every top-level value is a mapping (so the violation can
never surface later during stage execution); likewise
`get_binary_mask_fraction` with a mask present but neither a validity
array nor a reference patch raises `ValueError` immediately. -/
theorem context_and_mask_fail_fast :
    (∀ (cfg : PatchIterPipelineConfig) (extra : List (String × PyVal)),
      (∃ kv ∈ extra, kv.2.isMapping = false) →
      Context.make cfg extra = .error .typeError) ∧
    (∀ (cfg : PatchIterPipelineConfig) (extra : List (String × PyVal)),
      (∀ kv ∈ extra, kv.2.isMapping = true) →
      Context.make cfg extra = .ok ⟨cfg, extra⟩) ∧
    (∀ (bm : List (List ℚ)) (i j ps : Nat) (nodata tv bg df : ℚ),
      get_binary_mask_fraction (some bm) i j Option.none ps nodata tv bg df Option.none
        = .error .valueError) := by
  have hv_err : ∀ extra : List (String × PyVal),
      (∃ kv ∈ extra, kv.2.isMapping = false) →
      validate_extra extra = .error .typeError := by
    intro extra
    induction extra with
    | nil => rintro ⟨kv, hmem, _⟩; simp at hmem
    | cons hd tl ih =>
      obtain ⟨k, v⟩ := hd
      rintro ⟨kv, hmem, hmap⟩
      by_cases hm : v.isMapping
      · have hkv : kv ∈ tl := by
          rcases List.mem_cons.mp hmem with heq | htl
          · subst heq; rw [hmap] at hm; exact absurd hm (by simp)
          · exact htl
        simp only [validate_extra, hm]
        split <;> simpa using ih ⟨kv, hkv, hmap⟩
      · simp only [validate_extra, Bool.not_eq_true] at hm
        simp only [validate_extra, hm]
        split <;> simp
  have hv_ok : ∀ extra : List (String × PyVal),
      (∀ kv ∈ extra, kv.2.isMapping = true) →
      validate_extra extra = .ok () := by
    intro extra
    induction extra with
    | nil => intro _; rfl
    | cons hd tl ih =>
      obtain ⟨k, v⟩ := hd
      intro hall
      have hm : v.isMapping = true := hall (k, v) (by simp)
      have htl := ih (fun kv hkv => hall kv (List.mem_cons_of_mem _ hkv))
      simp only [validate_extra, hm]
      split <;> simpa using htl
  refine ⟨?_, ?_, ?_⟩
  · intro cfg extra hex
    unfold Context.make
    rw [hv_err extra hex]
  · intro cfg extra hall
    unfold Context.make
    rw [hv_ok extra hall]
  · intro bm i j ps nodata tv bg df
    simp [get_binary_mask_fraction, gbmfValidPixels]

/-- C7 witness: the reserved key `"patch"` supplied as the scalar `5` is
rejected at construction; an all-mapping `extra` constructs; a mask
without validity inputs raises. -/
theorem context_and_mask_fail_fast_witness :
    Context.make ⟨1, "uint8", "o", "i", PyVal.none, PyVal.none, PyVal.int 0,
        Option.none, PyVal.none, 1000⟩ [("patch", PyVal.int 5)] = .error .typeError ∧
    Context.make ⟨1, "uint8", "o", "i", PyVal.none, PyVal.none, PyVal.int 0,
        Option.none, PyVal.none, 1000⟩ [("comp", PyVal.map [])] =
      .ok ⟨⟨1, "uint8", "o", "i", PyVal.none, PyVal.none, PyVal.int 0,
        Option.none, PyVal.none, 1000⟩, [("comp", PyVal.map [])]⟩ ∧
    get_binary_mask_fraction (some [[(1 : ℚ)]]) 0 0 Option.none 1 0 1 0 1 Option.none
      = .error .valueError :=
  ⟨context_and_mask_fail_fast.1 _ _ ⟨("patch", PyVal.int 5), by simp, rfl⟩,
   context_and_mask_fail_fast.2.1 _ _
     (by intro kv hkv; simp at hkv; simp [hkv, PyVal.isMapping]),
   context_and_mask_fail_fast.2.2 [[(1 : ℚ)]] 0 0 1 0 1 0 1⟩

/-- C8 counterexample: with base configuration field `patch_size = 3` and
`extra = {"comp": {"patch_size": 7}}`, the name `"patch_size"` is present
in the component's sub-mapping, yet `Context.__getattr__` resolves it to
the base configuration's `3`, not the sub-mapping's `7`: lookup does not
consult the current component's sub-mapping. -/
theorem context_lookup_counterexample :
    lookupStr [("patch_size", PyVal.int 7)] "patch_size" = some (PyVal.int 7) ∧
    Context.getattr
      ⟨⟨3, "uint16", "out", "img", PyVal.none, PyVal.none, PyVal.int 0,
        Option.none, PyVal.none, 1000⟩,
       [("comp", PyVal.map [("patch_size", PyVal.int 7)])]⟩ "patch_size"
      = .ok (PyVal.int 3) ∧
    PyVal.int 3 ≠ PyVal.int 7 := by
  refine ⟨rfl, rfl, ?_⟩
  intro hcontra
  injection hcontra with hcontra'
  exact absurd hcontra' (by norm_num)

/-- C8 amended: a name requested from an Execution Context resolves first
against the *top-level* keys of the `extra` layer (component names and the
reserved `"patch"` entry) and only if absent there falls through to the
base Pipeline Configuration — so precisely top-level `extra` keys shadow
configuration fields of the same name; a name looked up inside a
component's sub-mapping (`NS`) resolves against that sub-mapping alone,
with a `KeyError` and no fall-through to the configuration when absent. -/
theorem context_lookup_amended (cfg : PatchIterPipelineConfig)
    (extra : List (String × PyVal)) (name : String) :
    (∀ v, lookupStr extra name = some v →
      Context.getattr ⟨cfg, extra⟩ name = .ok v) ∧
    (lookupStr extra name = Option.none →
      Context.getattr ⟨cfg, extra⟩ name = cfgGetattr cfg name) ∧
    (∀ sub : List (String × PyVal), lookupStr sub name = Option.none →
      NS.getattr sub name = .error .keyError) := by
  refine ⟨?_, ?_, ?_⟩
  · intro v hv
    simp [Context.getattr, hv]
  · intro hv
    simp [Context.getattr, hv]
  · intro sub hv
    simp [NS.getattr, hv]

/-- C8 amended witness: a top-level `extra` key `"nodata"` shadows the
configuration field `nodata`; a missing sub-mapping key raises `KeyError`. -/
theorem context_lookup_amended_witness :
    Context.getattr
      ⟨⟨3, "uint16", "out", "img", PyVal.none, PyVal.none, PyVal.int 0,
        Option.none, PyVal.none, 1000⟩,
       [("nodata", PyVal.map [("x", PyVal.int 1)])]⟩ "nodata"
      = .ok (PyVal.map [("x", PyVal.int 1)]) ∧
    NS.getattr [("low", PyVal.int 1)] "nodata" = .error .keyError :=
  ⟨(context_lookup_amended _ [("nodata", PyVal.map [("x", PyVal.int 1)])] "nodata").1 _ rfl,
   (context_lookup_amended ⟨3, "uint16", "out", "img", PyVal.none, PyVal.none,
      PyVal.int 0, Option.none, PyVal.none, 1000⟩ [] "nodata").2.2
     [("low", PyVal.int 1)] rfl⟩

/-- C4: `detect_buildings` as written raises a `TypeError` on every
GHSL/SAR pair — it passes keyword arguments `filter_value=` and `strict=`
to the `calculate_threshold_fraction` it imports from `core.filters`, whose
parameters are `(data, threshold, nodata, greater)` — so the claimed
equivalence fails against the shipped reference; against the intended
reference (thresholding the full reprojected array at once with the strict
`>` comparison those keywords name, i.e. the masks.py signature), the
chunked block accumulation returns exactly the same fraction, which is in
particular within the claimed 1e-9 tolerance. -/
theorem detect_buildings_typeerror_and_chunked_equivalence :
    (∀ (repro : Nat → Nat → ℤ) (H W : Nat) (nodata : Option ℤ) (fv : ℤ),
      detect_buildings repro H W nodata fv = .error .typeError) ∧
    (∀ (repro : Nat → Nat → ℤ) (H W : Nat) (nodata : Option ℤ) (fv : ℤ) (block : Nat),
      0 < block →
      detect_buildings_chunked repro H W nodata fv block
        = detect_buildings_reference repro H W nodata fv) := by
  constructor
  · intro repro H W nodata fv
    have hb : detect_buildings_call_kwargs.all
        (fun k => filters_calculate_threshold_fraction_params.contains k) = false := by
      decide
    simp [detect_buildings, hb]
    decide
  · intro repro H W nodata fv block hB
    unfold detect_buildings_reference
    cases nodata with
    | none =>
      rw [detect_buildings_chunked_counts_none repro H W fv hB,
          calculate_threshold_fraction_gt_strict_none]
    | some nd =>
      rw [detect_buildings_chunked_counts_some repro H W nd fv hB,
          calculate_threshold_fraction_gt_strict_some]

/-- C4 witness: a 4×4 grid whose top half is above threshold, processed in
3×3 blocks, yields the same fraction chunked and unchunked (and
`detect_buildings` raises on it). -/
theorem detect_buildings_typeerror_and_chunked_equivalence_witness :
    detect_buildings (fun r _ => if r < 2 then (10 : ℤ) else 0) 4 4 (some 0) 0
      = .error .typeError ∧
    detect_buildings_chunked (fun r _ => if r < 2 then (10 : ℤ) else 0) 4 4 (some 0) 0 3
      = detect_buildings_reference (fun r _ => if r < 2 then (10 : ℤ) else 0) 4 4 (some 0) 0 :=
  ⟨detect_buildings_typeerror_and_chunked_equivalence.1 _ 4 4 (some 0) 0,
   detect_buildings_typeerror_and_chunked_equivalence.2 _ 4 4 (some 0) 0 3 (by norm_num)⟩

/-- C1: for every raster of height `H` and width `W` and every effective
step ≥ 1, `cut_patches` visits exactly the windows whose row offset ranges
over the multiples of the step below `H` and whose column offset over the
multiples below `W`, in row-major order (strictly increasing row offset,
and within one row offset strictly increasing column offset), each window
of height `min(patch_size, H - i)` and width `min(patch_size, W - j)`; and
the returned metadata sequence lists the kept windows' records in this
visitation order. -/
theorem cut_patches_row_major_tiling (H W : Nat) (cfg : PatchIterPipelineConfig)
    (hs : 0 < stepOf cfg) :
    (∀ w : PyWindow,
      w ∈ visitedWindows H W (stepOf cfg) cfg.patch_size ↔
        ((∃ k, w.row_off = k * stepOf cfg) ∧ w.row_off < H ∧
         (∃ k, w.col_off = k * stepOf cfg) ∧ w.col_off < W ∧
         w.height = min cfg.patch_size (H - w.row_off) ∧
         w.width = min cfg.patch_size (W - w.col_off))) ∧
    List.Pairwise (fun a b : PyWindow =>
        a.row_off < b.row_off ∨ (a.row_off = b.row_off ∧ a.col_off < b.col_off))
      (visitedWindows H W (stepOf cfg) cfg.patch_size) ∧
    (∀ {α γ ρ : Type} (patchOf : PyWindow → α) (mkCtx : PyWindow → γ)
       (fb fa : List (α → γ → Bool)) (tr : Option (α → γ → Option α))
       (wfn : α → γ → Unit) (mfn : γ → ρ),
      cut_patches H W cfg patchOf mkCtx fb fa tr (some wfn) (some mfn)
        = .ok ((visitedWindows H W (stepOf cfg) cfg.patch_size).filterMap
            (fun w => if acceptedWin patchOf mkCtx fb fa tr w = true
                      then some (mfn (mkCtx w)) else Option.none))) := by
  refine ⟨?_, ?_, ?_⟩
  · intro w
    unfold visitedWindows
    rw [List.mem_flatMap]
    constructor
    · rintro ⟨i, hi, hw⟩
      rw [List.mem_map] at hw
      obtain ⟨j, hj, rfl⟩ := hw
      obtain ⟨⟨ki, hki⟩, hiH⟩ := (mem_pyRange hs).mp hi
      obtain ⟨⟨kj, hkj⟩, hjW⟩ := (mem_pyRange hs).mp hj
      exact ⟨⟨ki, hki⟩, hiH, ⟨kj, hkj⟩, hjW, rfl, rfl⟩
    · obtain ⟨c0, r0, wd, ht⟩ := w
      rintro ⟨⟨ki, hki⟩, hiH, ⟨kj, hkj⟩, hjW, hh, hw⟩
      simp only at hki hiH hkj hjW hh hw
      subst hh
      subst hw
      refine ⟨r0, (mem_pyRange hs).mpr ⟨⟨ki, hki⟩, hiH⟩, ?_⟩
      rw [List.mem_map]
      exact ⟨c0, (mem_pyRange hs).mpr ⟨⟨kj, hkj⟩, hjW⟩, rfl⟩
  · unfold visitedWindows
    rw [List.flatMap_def, List.pairwise_flatten]
    constructor
    · intro l' hl'
      rw [List.mem_map] at hl'
      obtain ⟨i, _, rfl⟩ := hl'
      rw [List.pairwise_map]
      exact List.Pairwise.imp (fun hab => Or.inr ⟨rfl, hab⟩) (pyRange_sorted hs W)
    · rw [List.pairwise_map]
      refine List.Pairwise.imp ?_ (pyRange_sorted hs H)
      intro i1 i2 h12
      intro x hx y hy
      rw [List.mem_map] at hx hy
      obtain ⟨j1, _, rfl⟩ := hx
      obtain ⟨j2, _, rfl⟩ := hy
      exact Or.inl h12
  · intro α γ ρ patchOf mkCtx fb fa tr wfn mfn
    obtain ⟨rs, hgo, _, hfm, _⟩ :=
      cutPatchesGo_some patchOf mkCtx fb fa tr wfn mfn
        (visitedWindows H W (stepOf cfg) cfg.patch_size)
    unfold cut_patches
    simp only [hgo, hfm]

/-- C1 witness: a 2×1 raster with patch size 2 and step 1 contains the
trailing window `(1, 0)` of clipped height 1. -/
theorem cut_patches_row_major_tiling_witness :
    (⟨0, 1, 1, 1⟩ : PyWindow) ∈
      visitedWindows 2 1
        (stepOf ⟨2, "uint8", "out", "img", PyVal.none, PyVal.none, PyVal.int 0,
          some 1, PyVal.none, 1000⟩)
        (PatchIterPipelineConfig.patch_size ⟨2, "uint8", "out", "img", PyVal.none,
          PyVal.none, PyVal.int 0, some 1, PyVal.none, 1000⟩) :=
  ((cut_patches_row_major_tiling 2 1
      ⟨2, "uint8", "out", "img", PyVal.none, PyVal.none, PyVal.int 0,
        some 1, PyVal.none, 1000⟩ (by norm_num [stepOf])).1
    ⟨0, 1, 1, 1⟩).mpr
    ⟨⟨1, by norm_num [stepOf]⟩, by norm_num, ⟨0, by norm_num [stepOf]⟩, by norm_num,
     by norm_num, by norm_num⟩

/-- C2: throughout a `cut_patches` run (with callbacks supplied), every
prefix of the trace has as many accumulated metadata records as writer
invocations — exactly one record per write, none for a window rejected by a
filter or whose transform returns no value — and the first filter returning
`False` short-circuits: exactly the filters up to and including it are
invoked, and a pre-transform rejection (or a `None` transform result) skips
transform, post filters, write and record for that window. -/
theorem cut_patches_write_record_invariant :
    (∀ {α γ ρ : Type} (patchOf : PyWindow → α) (mkCtx : PyWindow → γ)
       (fb fa : List (α → γ → Bool)) (tr : Option (α → γ → Option α))
       (wfn : α → γ → Unit) (mfn : γ → ρ) (ws : List PyWindow) (rs : List (WinRes ρ)),
      cutPatchesGo patchOf mkCtx fb fa tr (some wfn) (some mfn) ws = .ok rs →
        (∀ n : Nat, ((rs.take n).filterMap WinRes.recd).length
            = (rs.take n).countP (fun r => r.wrote)) ∧
        (∀ r ∈ rs, (r.wrote = true ↔ r.recd.isSome = true)
            ∧ r.wrote = acceptedWin patchOf mkCtx fb fa tr r.win)) ∧
    (∀ {α γ : Type} (fs : List (α → γ → Bool)) (p : α) (c : γ) (k : Nat)
       (hk : k < fs.length),
      (∀ i, i < k → ∀ hi : i < fs.length, fs.get ⟨i, hi⟩ p c = true) →
      fs.get ⟨k, hk⟩ p c = false →
      runFilterChain fs p c = (true, k + 1)) ∧
    (∀ {α γ ρ : Type} (patchOf : PyWindow → α) (mkCtx : PyWindow → γ)
       (fb fa : List (α → γ → Bool)) (tr : Option (α → γ → Option α))
       (wf : Option (α → γ → Unit)) (mf : Option (γ → ρ)) (w : PyWindow),
      (runFilterChain fb (patchOf w) (mkCtx w)).1 = true →
      processWindow patchOf mkCtx fb fa tr wf mf w
        = .ok ⟨w, (runFilterChain fb (patchOf w) (mkCtx w)).2, false, 0, false,
               Option.none⟩) ∧
    (∀ {α γ ρ : Type} (patchOf : PyWindow → α) (mkCtx : PyWindow → γ)
       (fb fa : List (α → γ → Bool)) (t : α → γ → Option α)
       (wf : Option (α → γ → Unit)) (mf : Option (γ → ρ)) (w : PyWindow),
      (runFilterChain fb (patchOf w) (mkCtx w)).1 = false →
      t (patchOf w) (mkCtx w) = Option.none →
      processWindow patchOf mkCtx fb fa (some t) wf mf w
        = .ok ⟨w, (runFilterChain fb (patchOf w) (mkCtx w)).2, true, 0, false,
               Option.none⟩) := by
  refine ⟨?_, ?_, ?_, ?_⟩
  · intro α γ ρ patchOf mkCtx fb fa tr wfn mfn ws rs h
    obtain ⟨rs', hgo, _, _, hall⟩ :=
      cutPatchesGo_some patchOf mkCtx fb fa tr wfn mfn ws
    rw [hgo] at h
    injection h with h
    subst h
    have hpoint : ∀ r ∈ rs', r.recd.isSome = r.wrote := by
      intro r hr
      obtain ⟨hwrote, hrecd⟩ := hall r hr
      cases hacc : acceptedWin patchOf mkCtx fb fa tr r.win
      · rw [hacc] at hwrote hrecd
        simp only [Bool.false_eq_true, if_false] at hrecd
        simp [hwrote, hrecd]
      · rw [hacc] at hwrote hrecd
        simp only [if_true] at hrecd
        simp [hwrote, hrecd]
    constructor
    · intro n
      exact filterMap_length_countP (rs'.take n)
        (fun r hr => hpoint r (List.mem_of_mem_take hr))
    · intro r hr
      obtain ⟨hwrote, _⟩ := hall r hr
      refine ⟨?_, hwrote⟩
      have := hpoint r hr
      constructor
      · intro hw; rw [hw] at this; exact this
      · intro hsome; rw [hsome] at this; exact this.symm
  · intro α γ fs p c k hk hall hkf
    exact runFilterChain_first_false fs p c k hk hall hkf
  · intro α γ ρ patchOf mkCtx fb fa tr wf mf w hpre
    simp only [processWindow, hpre, if_true]
  · intro α γ ρ patchOf mkCtx fb fa t wf mf w hpre ht
    simp only [processWindow, hpre, Bool.false_eq_true, if_false, ht]

/-- C2 witness: a one-window run with trivial stages produces one write and
one record; a singleton all-false filter chain rejects after one
invocation; the rejection and `None`-transform paths produce no write and
no record. -/
theorem cut_patches_write_record_invariant_witness :
    ((([⟨⟨0, 0, 1, 1⟩, 0, false, 0, true, some 7⟩] : List (WinRes Nat)).take 1).filterMap
        WinRes.recd).length
      = (([⟨⟨0, 0, 1, 1⟩, 0, false, 0, true, some 7⟩] : List (WinRes Nat)).take 1).countP
          (fun r => r.wrote) ∧
    runFilterChain [fun (_ : Unit) (_ : Unit) => false] () () = (true, 1) ∧
    processWindow (fun _ => ()) (fun _ => ()) [fun (_ : Unit) (_ : Unit) => false] []
        Option.none (some fun _ _ => ()) (some fun _ => (7 : Nat)) ⟨0, 0, 1, 1⟩
      = .ok ⟨⟨0, 0, 1, 1⟩, 1, false, 0, false, Option.none⟩ ∧
    processWindow (fun _ => ()) (fun _ => ()) [] []
        (some fun _ _ => Option.none) (some fun _ _ => ()) (some fun _ => (7 : Nat))
        ⟨0, 0, 1, 1⟩
      = .ok ⟨⟨0, 0, 1, 1⟩, 0, true, 0, false, Option.none⟩ :=
  ⟨(cut_patches_write_record_invariant.1 (fun _ => ()) (fun _ => ()) [] []
      Option.none (fun _ _ => ()) (fun _ => (7 : Nat)) [⟨0, 0, 1, 1⟩]
      [⟨⟨0, 0, 1, 1⟩, 0, false, 0, true, some 7⟩] rfl).1 1,
   cut_patches_write_record_invariant.2.1 [fun (_ : Unit) (_ : Unit) => false] () () 0
     (by norm_num) (fun i hi _ => absurd hi (by omega)) rfl,
   cut_patches_write_record_invariant.2.2.1 (fun _ => ()) (fun _ => ())
     [fun (_ : Unit) (_ : Unit) => false] [] Option.none (some fun _ _ => ())
     (some fun _ => (7 : Nat)) ⟨0, 0, 1, 1⟩ rfl,
   cut_patches_write_record_invariant.2.2.2 (fun _ => ()) (fun _ => ()) [] []
     (fun _ _ => Option.none) (some fun _ _ => ()) (some fun _ => (7 : Nat))
     ⟨0, 0, 1, 1⟩ rfl rfl⟩

/-- The single window visited on a 1×1 raster with patch size and step 1. -/
theorem visitedWindows_one : visitedWindows 1 1 1 1 = [⟨0, 0, 1, 1⟩] := by
  unfold visitedWindows
  rw [pyRange_pos Nat.one_pos Nat.one_pos]
  simp [pyRange_zero]

/-- C10: with the default `writer_fn = None` and `metadata_fn = None`, a
`cut_patches` run in which every visited window is rejected completes and
returns the empty metadata list, while a run with at least one fully
accepted window raises the not-callable `TypeError` at the writer
invocation of the first accepted window — so non-`None` callbacks are a
precondition for completing any run that accepts a window. -/
theorem cut_patches_none_callbacks {α γ ρ : Type} (H W : Nat)
    (cfg : PatchIterPipelineConfig) (patchOf : PyWindow → α) (mkCtx : PyWindow → γ)
    (fb fa : List (α → γ → Bool)) (tr : Option (α → γ → Option α)) :
    ((∀ w ∈ visitedWindows H W (stepOf cfg) cfg.patch_size,
        acceptedWin patchOf mkCtx fb fa tr w = false) →
      cut_patches H W cfg patchOf mkCtx fb fa tr Option.none
        (Option.none : Option (γ → ρ)) = .ok []) ∧
    ((∃ w ∈ visitedWindows H W (stepOf cfg) cfg.patch_size,
        acceptedWin patchOf mkCtx fb fa tr w = true) →
      cut_patches H W cfg patchOf mkCtx fb fa tr Option.none
        (Option.none : Option (γ → ρ)) = .error .writerNotCallable) := by
  have main : ∀ ws : List PyWindow,
      ((∀ w ∈ ws, acceptedWin patchOf mkCtx fb fa tr w = false) →
        ∃ rs : List (WinRes ρ),
          cutPatchesGo patchOf mkCtx fb fa tr Option.none Option.none ws = .ok rs
          ∧ rs.filterMap WinRes.recd = []) ∧
      ((∃ w ∈ ws, acceptedWin patchOf mkCtx fb fa tr w = true) →
        cutPatchesGo patchOf mkCtx fb fa tr Option.none
          (Option.none : Option (γ → ρ)) ws = .error .writerNotCallable) := by
    intro ws
    induction ws with
    | nil =>
      constructor
      · intro _
        exact ⟨[], rfl, rfl⟩
      · rintro ⟨w, hw, _⟩
        simp at hw
    | cons w ws' ih =>
      constructor
      · intro hall
        have hw := hall w (by simp)
        obtain ⟨r, hr, _, hrecd⟩ :=
          processWindow_rejected patchOf mkCtx fb fa tr Option.none Option.none w hw
        obtain ⟨rs', hgo', hfm'⟩ := ih.1 (fun x hx => hall x (by simp [hx]))
        refine ⟨r :: rs', ?_, ?_⟩
        · simp only [cutPatchesGo, hr, hgo']
        · simp [List.filterMap_cons, hrecd, hfm']
      · rintro ⟨x, hx, hacc⟩
        rcases List.mem_cons.mp hx with heq | hx'
        · subst heq
          have herr := processWindow_accepted_writer_none patchOf mkCtx fb fa tr
            (Option.none : Option (γ → ρ)) x hacc
          simp only [cutPatchesGo, herr]
        · by_cases hw : acceptedWin patchOf mkCtx fb fa tr w = true
          · have herr := processWindow_accepted_writer_none patchOf mkCtx fb fa tr
              (Option.none : Option (γ → ρ)) w hw
            simp only [cutPatchesGo, herr]
          · have hwf : acceptedWin patchOf mkCtx fb fa tr w = false :=
              Bool.not_eq_true _ ▸ by simpa using hw
            obtain ⟨r, hr, _, _⟩ :=
              processWindow_rejected patchOf mkCtx fb fa tr Option.none
                (Option.none : Option (γ → ρ)) w hwf
            have herr := ih.2 ⟨x, hx', hacc⟩
            simp only [cutPatchesGo, hr, herr]
  constructor
  · intro hall
    obtain ⟨rs, hgo, hfm⟩ :=
      (main (visitedWindows H W (stepOf cfg) cfg.patch_size)).1 hall
    unfold cut_patches
    simp only [hgo, hfm]
  · intro hex
    have herr := (main (visitedWindows H W (stepOf cfg) cfg.patch_size)).2 hex
    unfold cut_patches
    simp only [herr]

/-- C10 witness: on a 1×1 raster, an always-rejecting filter lets the
default-callback run complete with `[]`, while an all-accepting
configuration raises the writer `TypeError`. -/
theorem cut_patches_none_callbacks_witness :
    cut_patches 1 1 ⟨1, "uint8", "out", "img", PyVal.none, PyVal.none, PyVal.int 0,
        Option.none, PyVal.none, 1000⟩ (fun _ => ()) (fun _ => ())
        [fun (_ : Unit) (_ : Unit) => false] [] Option.none Option.none
        (Option.none : Option (Unit → Nat)) = .ok [] ∧
    cut_patches 1 1 ⟨1, "uint8", "out", "img", PyVal.none, PyVal.none, PyVal.int 0,
        Option.none, PyVal.none, 1000⟩ (fun _ => ()) (fun _ => ())
        [] [] Option.none Option.none (Option.none : Option (Unit → Nat))
      = .error .writerNotCallable :=
  ⟨(cut_patches_none_callbacks 1 1 _ _ _ _ _ _).1 (by
      show ∀ w ∈ visitedWindows 1 1 1 1,
        acceptedWin (fun _ => ()) (fun _ => ()) [fun (_ : Unit) (_ : Unit) => false] []
          Option.none w = false
      rw [visitedWindows_one]
      decide),
   (cut_patches_none_callbacks 1 1 _ _ _ _ _ _).2 ⟨⟨0, 0, 1, 1⟩,
     (by
       show (⟨0, 0, 1, 1⟩ : PyWindow) ∈ visitedWindows 1 1 1 1
       rw [visitedWindows_one]
       exact List.mem_singleton.mpr rfl),
     by decide⟩⟩

/-- C6 counterexample: in `sar_up_contrast_convert_to_uint8_p`, a sample
equal to `LOG_EPS` (with `scale_factor = 1`, `nodata = 0`) has its scaled
value at the epsilon floor — invalid per the claim, and indeed excluded by
the `pval` variant's own validity — yet the `_p` variant counts it valid
and its dB value is exactly the input `np.percentile` is applied to: an
invalid sample participates in percentile computation, refuting the claim
as stated. -/
theorem sar_p_eps_floor_counterexample :
    (LOG_EPS * 1 ≤ LOG_EPS ∧ ¬LOG_EPS = (0 : ℚ) ∧ ¬LOG_EPS ≤ (0 : ℚ)) ∧
    pvalValid 0 1 LOG_EPS = false ∧
    pValid 0 LOG_EPS = true ∧
    sar_p_percentile_input id [LOG_EPS] 1 0 = [sar_log10 id LOG_EPS 1] := by
  refine ⟨⟨by norm_num, by norm_num [LOG_EPS], by norm_num [LOG_EPS]⟩, ?_, ?_, ?_⟩
  · simp [pvalValid]
  · simp [pValid, LOG_EPS]
  · simp [sar_p_percentile_input, pValid, LOG_EPS]

/-- C6 amended: `sar_up_contrast_convert_to_uint8_pval` — the transform the
pipeline ships — satisfies the claim in full: samples that are `nodata`,
non-positive, or whose scaled value is at or below the epsilon floor are
invalid and map to output 0 (the output keeping the input's shape), and if
no sample is valid the result is all-zero without any percentile work (the
`pval` variant never computes percentiles at all).  In
`sar_up_contrast_convert_to_uint8_p`, validity excludes only `nodata` and
non-positive samples — the epsilon floor is not part of it — the input of
`np.percentile` consists of the dB values of exactly those valid samples
(so sub-epsilon positive samples participate), invalid samples map to the
clipped dB value cast to uint8 rather than to 0, and the all-invalid
degenerate case still returns an all-zero array of the input's shape. -/
theorem sar_transforms_validity_amended (log10 : ℚ → ℚ) (castU8 : ℚ → ℤ)
    (percentile : List ℚ → ℚ → ℚ) (img : List ℚ)
    (lo hi lowP highP scale nodata : ℚ) :
    (sar_up_contrast_convert_to_uint8_pval log10 castU8 img lo hi scale nodata).length
      = img.length ∧
    (sar_up_contrast_convert_to_uint8_p log10 castU8 percentile img lowP highP
        scale nodata).length = img.length ∧
    (∀ (k : Nat) (hk : k < img.length)
       (hk2 : k < (sar_up_contrast_convert_to_uint8_pval log10 castU8 img lo hi
                     scale nodata).length),
      pvalValid nodata scale (img.get ⟨k, hk⟩) = false →
      (sar_up_contrast_convert_to_uint8_pval log10 castU8 img lo hi scale nodata).get
          ⟨k, hk2⟩ = 0) ∧
    (img.all (fun x => !(pvalValid nodata scale x)) = true →
      sar_up_contrast_convert_to_uint8_pval log10 castU8 img lo hi scale nodata
        = img.map (fun _ => 0)) ∧
    (img.all (fun x => !(pValid nodata x)) = true →
      sar_up_contrast_convert_to_uint8_p log10 castU8 percentile img lowP highP
          scale nodata
        = img.map (fun _ => 0)) ∧
    (∀ d : ℚ, d ∈ sar_p_percentile_input log10 img scale nodata ↔
      ∃ x, x ∈ img ∧ pValid nodata x = true ∧ d = sar_log10 log10 x scale) ∧
    (∀ (k : Nat) (hk : k < img.length)
       (hk2 : k < (sar_up_contrast_convert_to_uint8_p log10 castU8 percentile img
                     lowP highP scale nodata).length),
      pValid nodata (img.get ⟨k, hk⟩) = false →
      img.all (fun x => !(pValid nodata x)) = false →
      (sar_up_contrast_convert_to_uint8_p log10 castU8 percentile img lowP highP
          scale nodata).get ⟨k, hk2⟩
        = castU8 (clip_percentile (sar_log10 log10 (img.get ⟨k, hk⟩) scale)
            (percentile (sar_p_percentile_input log10 img scale nodata) lowP)
            (percentile (sar_p_percentile_input log10 img scale nodata) highP))) := by
  refine ⟨?_, ?_, ?_, ?_, ?_, ?_, ?_⟩
  · unfold sar_up_contrast_convert_to_uint8_pval
    split <;> simp
  · unfold sar_up_contrast_convert_to_uint8_p
    split <;> simp
  · intro k hk hk2 hinv
    by_cases hall : img.all (fun x => !(pvalValid nodata scale x)) = true
    · have heq : sar_up_contrast_convert_to_uint8_pval log10 castU8 img lo hi scale nodata
          = img.map (fun _ => 0) := by
        unfold sar_up_contrast_convert_to_uint8_pval
        rw [if_pos hall]
      rw [List.get_of_eq heq]
      simp [List.get_eq_getElem, List.getElem_map]
    · have heq : sar_up_contrast_convert_to_uint8_pval log10 castU8 img lo hi scale nodata
          = img.map (fun x =>
              if pvalValid nodata scale x = true then
                castU8 (normalize_percentile
                  (clip_percentile (sar_log10 log10 x scale) lo hi) lo hi)
              else 0) := by
        unfold sar_up_contrast_convert_to_uint8_pval
        rw [if_neg hall]
      rw [List.get_of_eq heq]
      simp only [List.get_eq_getElem, List.getElem_map, Fin.coe_cast]
      simp only [List.get_eq_getElem] at hinv
      rw [hinv]
      simp
  · intro hall
    unfold sar_up_contrast_convert_to_uint8_pval
    rw [if_pos hall]
  · intro hall
    unfold sar_up_contrast_convert_to_uint8_p
    rw [if_pos hall]
  · intro d
    unfold sar_p_percentile_input
    constructor
    · intro hd
      rw [List.mem_map] at hd
      obtain ⟨x, hx, rfl⟩ := hd
      rw [List.mem_filter] at hx
      exact ⟨x, hx.1, hx.2, rfl⟩
    · rintro ⟨x, hx, hv, rfl⟩
      rw [List.mem_map]
      exact ⟨x, List.mem_filter.mpr ⟨hx, hv⟩, rfl⟩
  · intro k hk hk2 hinv hall
    have heq : sar_up_contrast_convert_to_uint8_p log10 castU8 percentile img lowP highP
          scale nodata
        = img.map (fun x =>
            if pValid nodata x = true then
              castU8 (normalize_percentile
                (clip_percentile (sar_log10 log10 x scale)
                  (percentile (sar_p_percentile_input log10 img scale nodata) lowP)
                  (percentile (sar_p_percentile_input log10 img scale nodata) highP))
                (percentile (sar_p_percentile_input log10 img scale nodata) lowP)
                (percentile (sar_p_percentile_input log10 img scale nodata) highP))
            else
              castU8 (clip_percentile (sar_log10 log10 x scale)
                (percentile (sar_p_percentile_input log10 img scale nodata) lowP)
                (percentile (sar_p_percentile_input log10 img scale nodata) highP))) := by
      unfold sar_up_contrast_convert_to_uint8_p
      rw [if_neg (by simp [hall])]
    rw [List.get_of_eq heq]
    simp only [List.get_eq_getElem, List.getElem_map, Fin.coe_cast]
    simp only [List.get_eq_getElem] at hinv
    rw [hinv]
    simp

/-- C6 amended witness: with stand-in numpy services, a nodata sample maps
to 0 under `pval`; all-invalid inputs give all-zero outputs in both
variants; an invalid sample under `_p` gets the clipped-dB-cast value. -/
theorem sar_transforms_validity_amended_witness :
    (sar_up_contrast_convert_to_uint8_pval id (fun _ => 0) [(0 : ℚ), 5] 0 1 1 0).get
        ⟨0, Nat.lt_of_lt_of_eq (by decide)
          (sar_transforms_validity_amended id (fun _ => 0) (fun _ _ => 0) [(0 : ℚ), 5]
            0 1 1 99 1 0).1.symm⟩ = 0 ∧
    sar_up_contrast_convert_to_uint8_pval id (fun _ => 0) [(0 : ℚ)] 0 1 1 0
      = [(0 : ℤ)] ∧
    sar_up_contrast_convert_to_uint8_p id (fun _ => 0) (fun _ _ => 0) [(0 : ℚ)] 1 99 1 0
      = [(0 : ℤ)] ∧
    (sar_up_contrast_convert_to_uint8_p id (fun _ => 0) (fun _ _ => 0) [(0 : ℚ), 5]
        1 99 1 0).get
        ⟨0, Nat.lt_of_lt_of_eq (by decide)
          (sar_transforms_validity_amended id (fun _ => 0) (fun _ _ => 0) [(0 : ℚ), 5]
            0 1 1 99 1 0).2.1.symm⟩ = 0 :=
  ⟨(sar_transforms_validity_amended id (fun _ => 0) (fun _ _ => 0) [(0 : ℚ), 5]
      0 1 1 99 1 0).2.2.1 0 (by decide)
      (Nat.lt_of_lt_of_eq (by decide)
        (sar_transforms_validity_amended id (fun _ => 0) (fun _ _ => 0) [(0 : ℚ), 5]
          0 1 1 99 1 0).1.symm) (by decide),
   (sar_transforms_validity_amended id (fun _ => 0) (fun _ _ => 0) [(0 : ℚ)]
      0 1 1 99 1 0).2.2.2.1 (by decide),
   (sar_transforms_validity_amended id (fun _ => 0) (fun _ _ => 0) [(0 : ℚ)]
      0 1 1 99 1 0).2.2.2.2.1 (by decide),
   (sar_transforms_validity_amended id (fun _ => 0) (fun _ _ => 0) [(0 : ℚ), 5]
      0 1 1 99 1 0).2.2.2.2.2.2 0 (by decide)
      (Nat.lt_of_lt_of_eq (by decide)
        (sar_transforms_validity_amended id (fun _ => 0) (fun _ _ => 0) [(0 : ℚ), 5]
          0 1 1 99 1 0).2.1.symm)
      (by decide) (by norm_num [pValid])⟩

end SatImg
